import Mathlib

/-!
# SmolChat-Android: the session and streaming-decode manager (`LLMInference`)

A shallow embedding of `smollm/src/main/cpp/LLMInference.cpp` and
`LLMInference.h`.

* Text (`std::string`, `const char*`, `std::vector<char>`) is a list of bytes
  (`List Nat`, every byte below 256).  A `const char*` view of a buffer
  (`c_str()`, `strdup`) ends at the first NUL byte: `cStr`.
* The inference engine (llama.cpp) is not part of the repository.  Its state is
  an abstract type `E` and its entry points are the fields of `Llama E`; every
  theorem about the session quantifies over all engines.
* A C++ exception is the `Except.error` component of a result; the session
  state reached when the exception leaves the method is returned next to it.
-/

namespace SmolLM

/-! ## Data model -/

/-- One slot of a `llama_batch` as filled by `common_batch_add(batch, id, pos, seq_ids, logits)`. -/
structure BatchEntry where
  token : Int
  pos : Int
  seq_id : List Int
  logits : Bool
deriving DecidableEq

/-- A `llama_chat_message`: two C strings. -/
structure ChatMessage where
  role : String
  content : List Nat
deriving DecidableEq

/-- The private `ImageFrame` of `LLMInference.h`. -/
structure ImageFrame where
  data : List Nat
  width : Int
  height : Int
  channels : Int
deriving DecidableEq

/-- The entry points of the inference engine that `LLMInference.cpp` calls.  `E` is
the mutable engine state behind `_ctx` (sequence memory, sampler state, clock);
the vocabulary, the context size and the chat template renderer are fixed once
the model is loaded. -/
structure Llama (E : Type) where
  /-- The value of `llama_n_ctx(_ctx)`. -/
  n_ctx : Nat
  /-- The value of `llama_model_chat_template(_model, nullptr)`, `none` for a null pointer. -/
  model_chat_template : Option (List Nat)
  /-- The text the engine formats for a template, a history and the
  add-generation-prompt flag; `none` when formatting fails. -/
  chat_template_text : Option (List Nat) → List ChatMessage → Bool → Option (List Nat)
  /-- The value of `common_tokenize(vocab, text, true, true)`. -/
  tokenize : List Nat → List Int
  /-- The value of `llama_vocab_is_eog(vocab, token)`. -/
  vocab_is_eog : Int → Bool
  /-- The value of `common_token_to_piece(_ctx, token, true)`. -/
  token_to_piece : Int → List Nat
  /-- The value of `llama_memory_seq_pos_max(llama_get_memory(_ctx), 0)`. -/
  memory_seq_pos_max : E → Int
  /-- The call `llama_decode(_ctx, batch)`: status and the engine state it leaves. -/
  decode : E → List BatchEntry → Int × E
  /-- The call `llama_sampler_sample(_sampler, _ctx, -1)`: token and the engine state it leaves. -/
  sampler_sample : E → Int × E
  /-- The value of `ggml_time_us()`. -/
  time_us : E → Int

/-- The data members of `class LLMInference` with the initial values of
`LLMInference.h`.  `_ctx = none` is the null `_ctx` (with `_model` and
`_sampler`) of a session that has not been loaded; `_batch = none` is the null
`_batch`. -/
structure LLMInference (E : Type) where
  _ctx : Option E := none
  _currToken : Int := 0
  _batch : Option (List BatchEntry) := none
  _messages : List ChatMessage := []
  _formattedMessages : List Nat := []
  _promptTokens : List Int := []
  _prevLen : Int := 0
  _chatTemplate : Option (List Nat) := none
  _response : List Nat := []
  _cacheResponseTokens : List Nat := []
  _storeChats : Bool := false
  _responseGenerationTime : Int := 0
  _responseNumTokens : Int := 0
  _nCtxUsed : Int := 0
  videoFrames : List ImageFrame := []
  is_multimodal_model : Bool := false
deriving DecidableEq

/-! ## C strings and the engine's C interface -/

/-- The bytes a `const char*` denotes: everything before the first NUL byte.
This is what `std::string::c_str()` followed by `strdup` yields. -/
def cStr (s : List Nat) : List Nat :=
  s.takeWhile (fun b => b != 0)

/-- The end marker returned by `completionLoop`: the five bytes of `"[EOG]"`. -/
def endMarker : List Nat := [0x5B, 0x45, 0x4F, 0x47, 0x5D]

/-- Conversion of an `int` to `uint32_t`, as in the comparison
`_nCtxUsed + _batch->n_tokens > contextSize`. -/
def toUInt32 (x : Int) : Int := x % 4294967296

/-- Modelled from the spec: `llama_chat_apply_template(tmpl, msgs, n, add_ass, buf, length)`
belongs to the engine and is missing from the repository.  Following the render
contract of the external interfaces section it returns the total length of the
formatted text, whatever the capacity of the buffer, and a negative number on a
formatting error; the text is copied into the buffer up to the capacity of the
buffer and the rest of the buffer is zero-filled.  A null buffer of length 0 is
the empty list. -/
def llama_chat_apply_template {E : Type} (L : Llama E) (tmpl : Option (List Nat))
    (msgs : List ChatMessage) (add_ass : Bool) (buf : List Nat) : Int × List Nat :=
  match L.chat_template_text tmpl msgs add_ass with
  | none => (-1, buf)
  | some text => ((text.length : Int), (text ++ List.replicate buf.length 0).take buf.length)

/-- The call `std::vector<char>::resize(n)`: truncate or pad with zero bytes. -/
def vectorResize (v : List Nat) (n : Nat) : List Nat :=
  v.take n ++ List.replicate (n - v.length) 0

/-- The range constructor `std::string(v.begin() + first, v.begin() + last)`.  The
range must lie inside the vector with `first ≤ last`; otherwise the behaviour of
the C++ code is undefined, modelled as `none`. -/
def stringFromRange (v : List Nat) (first last : Int) : Option (List Nat) :=
  if 0 ≤ first ∧ first ≤ last ∧ last ≤ (v.length : Int) then
    some ((v.take last.toNat).drop first.toNat)
  else none

/-! ## Session operations -/

/-- The successful path of `LLMInference::loadModel`: `e` is the context created by
the engine; `_formattedMessages`, `_messages`, `_chatTemplate` and `_storeChats`
are set, the other members are left as they are. -/
def loadModel {E : Type} (L : Llama E) (s : LLMInference E) (e : E) (storeChats : Bool)
    (chatTemplate : Option (List Nat)) : LLMInference E :=
  { s with
    _ctx := some e
    _formattedMessages := List.replicate L.n_ctx 0
    _messages := []
    _chatTemplate :=
      match chatTemplate with
      | none => L.model_chat_template
      | some t => some (cStr t)
    _storeChats := storeChats }

/-- The method `LLMInference::addChatMessage`: `_messages.push_back({strdup(role), strdup(message)})`. -/
def addChatMessage {E : Type} (s : LLMInference E) (message : List Nat) (role : String) :
    LLMInference E :=
  { s with _messages := s._messages ++ [{ role := role, content := cStr message }] }

/-- The method `LLMInference::getContextSizeUsed`. -/
def getContextSizeUsed {E : Type} (s : LLMInference E) : Int := s._nCtxUsed

/-- Lines 93 to 99 of `startCompletion`: render the history with a generation
prompt into `_formattedMessages`; when the returned length exceeds the buffer,
resize the buffer to that length and render once more.  Returns `newLen` and the
buffer. -/
def applyTemplateGrow {E : Type} (L : Llama E) (tmpl : Option (List Nat))
    (msgs : List ChatMessage) (buf : List Nat) : Int × List Nat :=
  let r := llama_chat_apply_template L tmpl msgs true buf
  if r.1 > (buf.length : Int) then
    llama_chat_apply_template L tmpl msgs true (vectorResize r.2 r.1.toNat)
  else r

/-- The loop of lines 111 to 113 of `startCompletion`: token `i` of the prompt is added
with position `i`, sequence id 0, and the logits flag set on the last token only. -/
def promptBatch (tokens : List Int) : List BatchEntry :=
  tokens.enum.map (fun p =>
    { token := p.2, pos := (p.1 : Int), seq_id := [0], logits := p.1 == tokens.length - 1 })

/-- Lines 93 to 103 of `startCompletion`, the operation the specification calls
`renderAndDiff`: render the history with a generation prompt (growing the buffer
once), fail on a negative length, and take the bytes `[prevLen, newLen)` of the
buffer as the prompt.  Returns the prompt, or the error, next to the buffer.  An
invalid iterator range is undefined behaviour in the C++ code and is reported
as an error here. -/
def renderAndDiff {E : Type} (L : Llama E) (tmpl : Option (List Nat))
    (msgs : List ChatMessage) (prevLen : Int) (buf : List Nat) :
    Except String (List Nat) × List Nat :=
  let r := applyTemplateGrow L tmpl msgs buf
  if r.1 < 0 then
    (.error "llama_chat_apply_template() failed", r.2)
  else
    match stringFromRange r.2 prevLen r.1 with
    | none => (.error "undefined behaviour: invalid iterator range", r.2)
    | some prompt => (.ok prompt, r.2)

/-- The method `LLMInference::startCompletion`.  Calling it on a session that has not
been loaded (null `_ctx`) is undefined behaviour in the C++ code and is reported
as an error here. -/
def startCompletion {E : Type} (L : Llama E) (s : LLMInference E) (query : List Nat) :
    Except String Unit × LLMInference E :=
  match s._ctx with
  | none => (.error "undefined behaviour: null context", s)
  | some _ =>
    let s1 : LLMInference E :=
      if !s._storeChats then
        { s with _prevLen := 0, _formattedMessages := List.replicate L.n_ctx 0 }
      else s
    let s2 : LLMInference E := { s1 with _responseGenerationTime := 0, _responseNumTokens := 0 }
    let s3 := addChatMessage s2 query "user"
    let r := renderAndDiff L s3._chatTemplate s3._messages s3._prevLen s3._formattedMessages
    let s4 : LLMInference E := { s3 with _formattedMessages := r.2 }
    match r.1 with
    | .error msg => (.error msg, s4)
    | .ok prompt =>
      let tokens := L.tokenize prompt
      (.ok (), { s4 with _promptTokens := tokens, _batch := some (promptBatch tokens) })

/-- The loop of `LLMInference::_isValidUtf8` over the bytes of a C string, the list
being followed by the terminating NUL.  The first argument is the number of
continuation bytes the inner `for` loop still expects (`num - i`); it is 0 at
the head of the outer `while` loop.  An empty list is the terminator: it ends
the outer loop with `true` and fails the continuation test of the inner loop,
`(0x00 & 0xC0) != 0x80`. -/
def utf8Scan : Nat → List Nat → Bool
  | 0, [] => true
  | 0, b :: bs =>
    if b = 0x00 then true
    else if b &&& 0x80 = 0x00 then utf8Scan 0 bs
    else if b &&& 0xE0 = 0xC0 then utf8Scan 1 bs
    else if b &&& 0xF0 = 0xE0 then utf8Scan 2 bs
    else if b &&& 0xF8 = 0xF0 then utf8Scan 3 bs
    else false
  | _ + 1, [] => false
  | k + 1, b :: bs => if b &&& 0xC0 ≠ 0x80 then false else utf8Scan k bs

/-- The method `LLMInference::_isValidUtf8` applied to `response.c_str()`, which is
never null. -/
def _isValidUtf8 (response : List Nat) : Bool := utf8Scan 0 response

/-- The UTF-8 reassembler of `completionLoop` (line 162 and lines 168 to 175) as a
function of the pending buffer `_cacheResponseTokens` and the piece: the piece
is appended to the buffer; a buffer that passes `_isValidUtf8` is returned whole
and cleared, otherwise the empty string is returned and the buffer is kept.
Returns the text and the new pending buffer.  The theorem
`completionLoopCore_piece` shows that this is what `completionLoop` does. -/
def reassemble (cache piece : List Nat) : List Nat × List Nat :=
  let cache1 := cache ++ piece
  if _isValidUtf8 cache1 then (cache1, []) else ([], cache1)

/-- The exits of `completionLoop`. -/
inductive LoopExit where
  /-- The guard of line 138: `return "[EOG]"` without touching anything. -/
  | notReady
  /-- The exception of line 142, `"context size reached"`. -/
  | contextSizeReached
  /-- The exception of line 148, `"llama_decode() failed"`. -/
  | decodeFailed
  /-- The sampled token is an end-of-generation token: line 156, `return "[EOG]"`. -/
  | endOfGeneration
  /-- Lines 172 and 175: the flushed text, or the empty string. -/
  | piece (text : List Nat)
deriving DecidableEq

/-- The body of `LLMInference::completionLoop`, returning the exit taken and the
session state at that exit. -/
def completionLoopCore {E : Type} (L : Llama E) (s : LLMInference E) :
    LoopExit × LLMInference E :=
  match s._ctx, s._batch with
  | none, _ => (.notReady, s)
  | some _, none => (.notReady, s)
  | some e, some batch =>
    let contextSize : Int := (L.n_ctx : Int)
    let s1 : LLMInference E := { s with _nCtxUsed := L.memory_seq_pos_max e + 1 }
    if toUInt32 (s1._nCtxUsed + (batch.length : Int)) > contextSize then
      (.contextSizeReached, s1)
    else
      let start := L.time_us e
      let d : Int × E := if batch.length > 0 then L.decode e batch else (0, e)
      if d.1 < 0 then
        (.decodeFailed, { s1 with _ctx := some d.2 })
      else
        let t := L.sampler_sample d.2
        let s2 : LLMInference E := { s1 with _ctx := some t.2, _currToken := t.1 }
        if L.vocab_is_eog s2._currToken then
          (.endOfGeneration, { addChatMessage s2 s2._response "assistant" with _response := [] })
        else
          let piece := L.token_to_piece s2._currToken
          let stop := L.time_us t.2
          let s3 : LLMInference E :=
            { s2 with
              _responseGenerationTime := s2._responseGenerationTime + (stop - start)
              _responseNumTokens := s2._responseNumTokens + 1
              _cacheResponseTokens := s2._cacheResponseTokens ++ piece
              _nCtxUsed := L.memory_seq_pos_max t.2 + 1
              _batch := some [{ token := s2._currToken, pos := L.memory_seq_pos_max t.2 + 1,
                                seq_id := [0], logits := true }] }
          if _isValidUtf8 s3._cacheResponseTokens then
            (.piece s3._cacheResponseTokens,
              { s3 with _response := s3._response ++ s3._cacheResponseTokens
                        _cacheResponseTokens := [] })
          else
            (.piece [], s3)

/-- What the caller of `completionLoop` receives at each exit: the returned string
or the message of the exception. -/
def LoopExit.result : LoopExit → Except String (List Nat)
  | .notReady => .ok endMarker
  | .contextSizeReached => .error "context size reached"
  | .decodeFailed => .error "llama_decode() failed"
  | .endOfGeneration => .ok endMarker
  | .piece text => .ok text

/-- The method `LLMInference::completionLoop`. -/
def completionLoop {E : Type} (L : Llama E) (s : LLMInference E) :
    Except String (List Nat) × LLMInference E :=
  ((completionLoopCore L s).1.result, (completionLoopCore L s).2)

/-- The method `LLMInference::stopCompletion`. -/
def stopCompletion {E : Type} (L : Llama E) (s : LLMInference E) :
    Except String Unit × LLMInference E :=
  let s1 : LLMInference E :=
    if s._storeChats ∧ s._response ≠ [] then addChatMessage s s._response "assistant" else s
  let s2 : LLMInference E := { s1 with _response := [] }
  if ¬ s2.is_multimodal_model ∧ s2._chatTemplate.isSome then
    let s3 : LLMInference E :=
      { s2 with _prevLen := (llama_chat_apply_template L s2._chatTemplate s2._messages false []).1 }
    if s3._prevLen < 0 then (.error "llama_chat_apply_template() failed", s3) else (.ok (), s3)
  else (.ok (), s2)

/-- The method `LLMInference::addVideoFrame`. -/
def addVideoFrame {E : Type} (s : LLMInference E) (pixel_data : List Nat)
    (width height channels : Int) : LLMInference E :=
  if channels ≠ 3 then s
  else
    { s with videoFrames := s.videoFrames ++
        [{ data := pixel_data.take (width * height * channels).toNat,
           width := width, height := height, channels := channels }] }

/-- The method `LLMInference::clearVideoFrames`. -/
def clearVideoFrames {E : Type} (s : LLMInference E) : LLMInference E :=
  { s with videoFrames := [] }

/-- The method `LLMInference::getFrameCount`. -/
def getFrameCount {E : Type} (s : LLMInference E) : Int := (s.videoFrames.length : Int)

/-! ## Call sequences -/

/-- The polling loop of the caller: `n` successive calls of `completionLoop`, each of which
returns text (possibly the empty string) through the exit of lines 172 and 175.
Returns the strings in the order returned and the final state; `none` when one
of the `n` calls leaves through another exit. -/
def pollPieces {E : Type} (L : Llama E) : Nat → LLMInference E →
    Option (List (List Nat) × LLMInference E)
  | 0, s => some ([], s)
  | n + 1, s =>
    match completionLoopCore L s with
    | (.piece text, s1) =>
      match pollPieces L n s1 with
      | some r => some (text :: r.1, r.2)
      | none => none
    | _ => none

/-- A sequence of feeds of the reassembler, from a pending buffer: the texts returned, in
order, and the final pending buffer. -/
def feedAll : List Nat → List (List Nat) → List (List Nat) × List Nat
  | cache, [] => ([], cache)
  | cache, piece :: rest =>
    ((reassemble cache piece).1 :: (feedAll (reassemble cache piece).2 rest).1,
      (feedAll (reassemble cache piece).2 rest).2)

/-! ## Reference notions of UTF-8 used to state the properties -/

/-- A Unicode scalar value: a code point up to U+10FFFF that is not a surrogate. -/
def isScalarValue (cp : Nat) : Prop := cp < 0xD800 ∨ (0xE000 ≤ cp ∧ cp < 0x110000)

/-- The UTF-8 encoding of a scalar value (RFC 3629). -/
def utf8Encode (cp : Nat) : List Nat :=
  if cp < 0x80 then [cp]
  else if cp < 0x800 then [0xC0 + cp / 64, 0x80 + cp % 64]
  else if cp < 0x10000 then [0xE0 + cp / 4096, 0x80 + cp / 64 % 64, 0x80 + cp % 64]
  else [0xF0 + cp / 262144, 0x80 + cp / 4096 % 64, 0x80 + cp / 64 % 64, 0x80 + cp % 64]

/-- A well-formed UTF-8 string: the encodings of a sequence of scalar values, one after
the other. -/
def WellFormedUtf8 (bytes : List Nat) : Prop :=
  ∃ cps : List Nat, (∀ cp ∈ cps, isScalarValue cp) ∧ bytes = (cps.map utf8Encode).flatten

/-- The length of the sequence a lead byte announces, by the bit patterns of the
specification: `0xxxxxxx` 1, `110xxxxx` 2, `1110xxxx` 3, `11110xxx` 4; `none` for a
byte that cannot start a sequence. -/
def leadLength (b : Nat) : Option Nat :=
  if b < 0x80 then some 1
  else if 0xC0 ≤ b ∧ b < 0xE0 then some 2
  else if 0xE0 ≤ b ∧ b < 0xF0 then some 3
  else if 0xF0 ≤ b ∧ b < 0xF8 then some 4
  else none

/-- A continuation byte, `10xxxxxx`. -/
def isContinuation (b : Nat) : Prop := 0x80 ≤ b ∧ b < 0xC0

/-- Structural UTF-8: a sequence of complete groups, each a lead byte followed by as
many continuation bytes as the lead byte announces.  Neither overlong forms,
nor surrogates, nor code points above U+10FFFF are excluded. -/
inductive StructuralUtf8 : List Nat → Prop where
  | nil : StructuralUtf8 []
  | group (b : Nat) (conts rest : List Nat) (n : Nat) :
      leadLength b = some n → conts.length + 1 = n → (∀ c ∈ conts, isContinuation c) →
      StructuralUtf8 rest → StructuralUtf8 (b :: (conts ++ rest))

/-! ## A byte-level engine for the concrete runs -/

/-- The state of the byte-level engine: the occupied positions of sequence 0 and the
tokens the sampler is going to draw. -/
structure ByteCtx where
  positions : List Int
  script : List Int
deriving DecidableEq

/-- A byte-level engine.  The vocabulary is the 256 byte tokens (token `b` has the
piece `[b]`) and the end-of-generation token 256; the tokenizer maps every byte
to its token; the template writes every message content followed by a line feed
and `>` as the generation prompt; decoding occupies the positions of the batch;
the sampler draws the next token of the script, and the end-of-generation token
once the script is exhausted. -/
def byteLlama (modelTemplate : Option (List Nat)) : Llama ByteCtx where
  n_ctx := 64
  model_chat_template := modelTemplate
  chat_template_text := fun _ msgs add_ass =>
    some ((msgs.map (fun m => m.content ++ [0x0A])).flatten ++ (if add_ass then [0x3E] else []))
  tokenize := fun text => text.map (fun b => (b : Int))
  vocab_is_eog := fun t => t == 256
  token_to_piece := fun t => [t.toNat]
  memory_seq_pos_max := fun e => e.positions.foldl max (-1)
  decode := fun e batch => (0, { e with positions := e.positions ++ batch.map (fun b => b.pos) })
  sampler_sample := fun e => (e.script.headD 256, { e with script := e.script.tail })
  time_us := fun _ => 0

/-- A session of the byte-level engine right after `loadModel`, called on a new object
with no template argument, the sampler script being `script`. -/
def byteSession (modelTemplate : Option (List Nat)) (storeChats : Bool) (script : List Int) :
    LLMInference ByteCtx :=
  loadModel (byteLlama modelTemplate) {} { positions := [], script := script } storeChats none

/-! ## Concrete runs -/

/-- The chat template of the concrete sessions, the C string `"b"`. -/
def byteTemplate : List Nat := [0x62]

/-- The query `"Hi"`. -/
def queryHi : List Nat := [0x48, 0x69]

/-- The query `"Yo"`. -/
def queryYo : List Nat := [0x59, 0x6F]

/-- The state after `startCompletion(query)` on `s`. -/
def afterStart {E : Type} (L : Llama E) (s : LLMInference E) (query : List Nat) : LLMInference E :=
  (startCompletion L s query).2

/-- The state after `n` calls of `completionLoop` that return text; `s` itself when one of
them leaves through another exit. -/
def afterPieces {E : Type} (L : Llama E) (n : Nat) (s : LLMInference E) : LLMInference E :=
  match pollPieces L n s with
  | some r => r.2
  | none => s

/-- The state after one call of `completionLoop`. -/
def afterLoop {E : Type} (L : Llama E) (s : LLMInference E) : LLMInference E :=
  (completionLoopCore L s).2

/-- The state after `stopCompletion`. -/
def afterStop {E : Type} (L : Llama E) (s : LLMInference E) : LLMInference E :=
  (stopCompletion L s).2

/-- A complete turn: `startCompletion(query)`, `n` calls of `completionLoop` that return
text, one more call of `completionLoop`, and `stopCompletion`. -/
def afterTurn {E : Type} (L : Llama E) (s : LLMInference E) (query : List Nat) (n : Nat) :
    LLMInference E :=
  afterStop L (afterLoop L (afterPieces L n (afterStart L s query)))

/-- The non-empty strings among those returned by `completionLoop`. -/
def nonEmptyFragments (frags : List (List Nat)) : List (List Nat) :=
  frags.filter (fun f => !f.isEmpty)

/-- The byte-level engine of a model whose chat template is `byteTemplate`. -/
def byteEngine : Llama ByteCtx := byteLlama (some byteTemplate)

/-- The byte-level engine of a model without a chat template. -/
def noTemplateEngine : Llama ByteCtx := byteLlama none

/-- A loaded session whose sampler draws `O`, `K`, the end-of-generation token, and then
`Y`. -/
def okSession (storeChats : Bool) : LLMInference ByteCtx :=
  byteSession (some byteTemplate) storeChats [0x4F, 0x4B, 256, 0x59]

/-- A loaded session with `storeChats = true` whose sampler draws `A`, the byte token
of NUL, and then the end-of-generation token. -/
def nulSession : LLMInference ByteCtx :=
  byteSession (some byteTemplate) true [0x41, 0x00]

/-- A session loaded with `storeChats = true` and no template argument from a model
without a chat template, so that `_chatTemplate` is null; the sampler draws `O`, the
byte token of NUL, `K`, and then the end-of-generation token. -/
def noTemplateSession : LLMInference ByteCtx :=
  byteSession none true [0x4F, 0x00, 0x4B]

/-- A query of 70 letters `a`, longer than the 64 positions of the context. -/
def longQuery : List Nat := List.replicate 70 0x61

/-- A loaded session whose sampler draws the byte tokens `C0` and `80`. -/
def overlongSession : LLMInference ByteCtx :=
  byteSession (some byteTemplate) true [0xC0, 0x80]

/-- A loaded session whose sampler draws the byte token `E2` and then `A`. -/
def heldBackSession : LLMInference ByteCtx :=
  byteSession (some byteTemplate) true [0xE2, 0x41]

/-! ## Arbitrary call sequences -/

/-- One call of the three methods that drive a turn. -/
inductive Call where
  | startCompletion (query : List Nat)
  | completionLoop
  | stopCompletion
deriving DecidableEq

/-- The session state a call leaves, whether it returns or throws. -/
def Call.run {E : Type} (L : Llama E) (s : LLMInference E) : Call → LLMInference E
  | .startCompletion query => (SmolLM.startCompletion L s query).2
  | .completionLoop => (SmolLM.completionLoop L s).2
  | .stopCompletion => (SmolLM.stopCompletion L s).2

/-- The session state after a sequence of calls, made one after the other. -/
def runCalls {E : Type} (L : Llama E) (s : LLMInference E) (calls : List Call) :
    LLMInference E :=
  calls.foldl (Call.run L) s

/-- The arguments of one call of `addVideoFrame`. -/
structure FrameCall where
  pixel_data : List Nat
  width : Int
  height : Int
  channels : Int
deriving DecidableEq

/-- The session state after a sequence of `addVideoFrame` calls. -/
def addVideoFrames {E : Type} (s : LLMInference E) (calls : List FrameCall) : LLMInference E :=
  calls.foldl (fun st c => addVideoFrame st c.pixel_data c.width c.height c.channels) s

/-- A byte that cannot start a UTF-8 sequence: `10xxxxxx` or `11111xxx`. -/
def cannotStart (b : Nat) : Prop := (0x80 ≤ b ∧ b < 0xC0) ∨ (0xF8 ≤ b ∧ b < 0x100)

/-- A multi-byte lead byte: `110xxxxx`, `1110xxxx` or `11110xxx`. -/
def isMultiByteLead (b : Nat) : Prop := 0xC0 ≤ b ∧ b < 0xF8

/-- A structurally invalid pending buffer: it begins with a byte that cannot start a
sequence, or with a multi-byte lead byte followed by a non-zero byte that is
not a continuation byte. -/
def StructurallyInvalid : List Nat → Prop
  | [] => False
  | [b] => cannotStart b
  | b :: c :: _ => cannotStart b ∨ (isMultiByteLead b ∧ c ≠ 0 ∧ c < 0x100 ∧ ¬ isContinuation c)

/-- A query of 62 letters `a`: with the line feed and the generation prompt its prompt
fills the 64 bytes of the buffer and the 64 positions of the context. -/
def fullQuery : List Nat := List.replicate 62 0x61

/-- A loaded session whose sampler draws the stray continuation byte `80`, then `A`,
the end-of-generation token, and `B`. -/
def strayByteSession : LLMInference ByteCtx :=
  byteSession (some byteTemplate) true [0x80, 0x41, 256, 0x42]

end SmolLM

namespace SmolLM

/-! ## Bytes and C strings -/

set_option maxRecDepth 100000 in
/-- The bit masks of `_isValidUtf8` select the byte ranges of the lead-byte classes and
of the continuation bytes. -/
theorem byte_class_masks : ∀ b, b < 256 →
    ((b &&& 0x80 = 0x00) ↔ b < 0x80) ∧
    ((b &&& 0xE0 = 0xC0) ↔ (0xC0 ≤ b ∧ b < 0xE0)) ∧
    ((b &&& 0xF0 = 0xE0) ↔ (0xE0 ≤ b ∧ b < 0xF0)) ∧
    ((b &&& 0xF8 = 0xF0) ↔ (0xF0 ≤ b ∧ b < 0xF8)) ∧
    ((b &&& 0xC0 = 0x80) ↔ (0x80 ≤ b ∧ b < 0xC0)) := by
  decide

theorem cStr_nil : cStr [] = [] := rfl

theorem cStr_cons_zero (bs : List Nat) : cStr (0 :: bs) = [] := rfl

theorem cStr_cons_ne (b : Nat) (bs : List Nat) (hb : b ≠ 0) : cStr (b :: bs) = b :: cStr bs := by
  simp [cStr, List.takeWhile_cons, hb]

theorem cStr_append_of_nonzero (xs ys : List Nat) (h : ∀ x ∈ xs, x ≠ 0) :
    cStr (xs ++ ys) = xs ++ cStr ys := by
  induction xs with
  | nil => rfl
  | cons x xs ih =>
    have hx : x ≠ 0 := h x (List.mem_cons_self _ _)
    have hxs : ∀ y ∈ xs, y ≠ 0 := fun y hy => h y (List.mem_cons_of_mem _ hy)
    rw [List.cons_append, cStr_cons_ne _ _ hx, ih hxs, List.cons_append]

theorem cStr_of_nonzero (xs : List Nat) (h : ∀ x ∈ xs, x ≠ 0) : cStr xs = xs := by
  have := cStr_append_of_nonzero xs [] h
  simpa [cStr_nil] using this

/-! ## The validator -/

/-- A scan that expects `k` continuation bytes and succeeds has read `k` continuation
bytes and then succeeded from the head of the outer loop. -/
theorem utf8Scan_continuations (k : Nat) :
    ∀ bs : List Nat, (∀ b ∈ bs, b < 256) → utf8Scan k bs = true →
      ∃ conts rest, bs = conts ++ rest ∧ conts.length = k ∧
        (∀ c ∈ conts, isContinuation c) ∧ utf8Scan 0 rest = true := by
  induction k with
  | zero =>
    intro bs _ h
    exact ⟨[], bs, rfl, rfl, by simp, h⟩
  | succ k ih =>
    intro bs hb h
    cases bs with
    | nil => simp [utf8Scan] at h
    | cons b bs =>
      have hb256 : b < 256 := hb b (List.mem_cons_self _ _)
      have hbs : ∀ x ∈ bs, x < 256 := fun x hx => hb x (List.mem_cons_of_mem _ hx)
      by_cases hc : b &&& 0xC0 = 0x80
      · have h2 : utf8Scan k bs = true := by simpa [utf8Scan, hc] using h
        obtain ⟨conts, rest, hsplit, hlen, hcont, hrest⟩ := ih bs hbs h2
        refine ⟨b :: conts, rest, by simp [hsplit], by simp [hlen], ?_, hrest⟩
        intro c hcmem
        rcases List.mem_cons.mp hcmem with rfl | hcmem
        · exact ((byte_class_masks c hb256).2.2.2.2).mp hc
        · exact hcont c hcmem
      · simp [utf8Scan, hc] at h

/-- What the outer loop of `_isValidUtf8` does with the first byte. -/
theorem utf8Scan_lead (b : Nat) (bs : List Nat) (hb : b < 256) (hz : b ≠ 0)
    (h : utf8Scan 0 (b :: bs) = true) :
    ∃ n, leadLength b = some (n + 1) ∧ utf8Scan n bs = true := by
  obtain ⟨m1, m2, m3, m4, _⟩ := byte_class_masks b hb
  unfold utf8Scan at h
  simp only [hz, if_false] at h
  by_cases h1 : b &&& 0x80 = 0x00
  · rw [if_pos h1] at h
    exact ⟨0, by simp [leadLength, m1.mp h1], h⟩
  · rw [if_neg h1] at h
    have n1 : ¬ b < 0x80 := fun c => h1 (m1.mpr c)
    by_cases h2 : b &&& 0xE0 = 0xC0
    · rw [if_pos h2] at h
      exact ⟨1, by simp [leadLength, n1, m2.mp h2], h⟩
    · rw [if_neg h2] at h
      have n2 : ¬ (0xC0 ≤ b ∧ b < 0xE0) := fun c => h2 (m2.mpr c)
      by_cases h3 : b &&& 0xF0 = 0xE0
      · rw [if_pos h3] at h
        exact ⟨2, by simp [leadLength, n1, n2, m3.mp h3], h⟩
      · rw [if_neg h3] at h
        have n3 : ¬ (0xE0 ≤ b ∧ b < 0xF0) := fun c => h3 (m3.mpr c)
        by_cases h4 : b &&& 0xF8 = 0xF0
        · rw [if_pos h4] at h
          exact ⟨3, by simp [leadLength, n1, n2, n3, m4.mp h4], h⟩
        · rw [if_neg h4] at h
          exact absurd h (by simp)

/-- A buffer accepted by `_isValidUtf8` is, up to its first NUL byte, a sequence of
complete groups. -/
theorem isValidUtf8_structural (n : Nat) :
    ∀ bs : List Nat, bs.length ≤ n → (∀ b ∈ bs, b < 256) → _isValidUtf8 bs = true →
      StructuralUtf8 (cStr bs) := by
  induction n with
  | zero =>
    intro bs hlen _ _
    have : bs = [] := List.length_eq_zero.mp (Nat.le_zero.mp hlen)
    subst this
    exact StructuralUtf8.nil
  | succ n ih =>
    intro bs hlen hb h
    cases bs with
    | nil => exact StructuralUtf8.nil
    | cons b bs =>
      have hb256 : b < 256 := hb b (List.mem_cons_self _ _)
      have hbs : ∀ x ∈ bs, x < 256 := fun x hx => hb x (List.mem_cons_of_mem _ hx)
      by_cases hz : b = 0
      · subst hz
        rw [cStr_cons_zero]
        exact StructuralUtf8.nil
      · obtain ⟨k, hlead, hscan⟩ := utf8Scan_lead b bs hb256 hz h
        obtain ⟨conts, rest, hsplit, hclen, hcont, hrest⟩ :=
          utf8Scan_continuations k bs hbs hscan
        subst hsplit
        have hnz : ∀ c ∈ conts, c ≠ 0 := by
          intro c hc
          have := hcont c hc
          unfold isContinuation at this
          omega
        have hrlen : rest.length ≤ n := by
          simp only [List.length_cons, List.length_append] at hlen
          omega
        have hrb : ∀ x ∈ rest, x < 256 := fun x hx => hbs x (List.mem_append_right _ hx)
        rw [cStr_cons_ne _ _ hz, cStr_append_of_nonzero _ _ hnz]
        exact StructuralUtf8.group b conts (cStr rest) (k + 1) hlead (by omega) hcont
          (ih rest hrlen hrb hrest)

/-- Appending ASCII bytes other than NUL to an accepted buffer gives an accepted buffer. -/
theorem utf8Scan_append_ascii (frag : List Nat) (hascii : ∀ b ∈ frag, 1 ≤ b ∧ b ≤ 0x7F) :
    ∀ (cache : List Nat) (k : Nat), utf8Scan k cache = true → utf8Scan k (cache ++ frag) = true := by
  have hfrag : utf8Scan 0 frag = true := by
    induction frag with
    | nil => rfl
    | cons b bs ih =>
      have hb := hascii b (List.mem_cons_self _ _)
      have hz : b ≠ 0 := by omega
      have hm : b &&& 0x80 = 0x00 := (byte_class_masks b (by omega)).1.mpr (by omega)
      have := ih (fun x hx => hascii x (List.mem_cons_of_mem _ hx))
      simp [utf8Scan, hz, hm, this]
  intro cache
  induction cache with
  | nil =>
    intro k h
    cases k with
    | zero => simpa using hfrag
    | succ k => simp [utf8Scan] at h
  | cons b bs ih =>
    intro k h
    cases k with
    | zero =>
      rw [List.cons_append]
      unfold utf8Scan at h ⊢
      split_ifs at h ⊢ with h0 h1 h2 h3 h4
      all_goals first | rfl | exact ih _ h
    | succ k =>
      rw [List.cons_append]
      unfold utf8Scan at h ⊢
      split_ifs at h ⊢ with h0
      exact ih _ h

/-! ## The reassembler -/

set_option maxRecDepth 100000 in
/-- The masks of `_isValidUtf8` on the bytes that `utf8Encode` produces. -/
theorem encoded_byte_masks :
    (∀ x, x < 32 → 0xC0 + x ≠ 0 ∧ (0xC0 + x) &&& 0x80 ≠ 0 ∧ (0xC0 + x) &&& 0xE0 = 0xC0) ∧
    (∀ x, x < 16 → 0xE0 + x ≠ 0 ∧ (0xE0 + x) &&& 0x80 ≠ 0 ∧ (0xE0 + x) &&& 0xE0 ≠ 0xC0 ∧
      (0xE0 + x) &&& 0xF0 = 0xE0) ∧
    (∀ x, x < 8 → 0xF0 + x ≠ 0 ∧ (0xF0 + x) &&& 0x80 ≠ 0 ∧ (0xF0 + x) &&& 0xE0 ≠ 0xC0 ∧
      (0xF0 + x) &&& 0xF0 ≠ 0xE0 ∧ (0xF0 + x) &&& 0xF8 = 0xF0) ∧
    (∀ y, y < 64 → (0x80 + y) &&& 0xC0 = 0x80) := by
  decide

theorem reassemble_of_valid (cache piece : List Nat) (h : _isValidUtf8 (cache ++ piece) = true) :
    reassemble cache piece = (cache ++ piece, []) := by
  simp [reassemble, h]

theorem reassemble_of_invalid (cache piece : List Nat) (h : _isValidUtf8 (cache ++ piece) = false) :
    reassemble cache piece = ([], cache ++ piece) := by
  simp [reassemble, h]

/-- A two-byte group: the lead byte alone is held back, the pair is accepted. -/
theorem scan_two_bytes (l c : Nat) (h0 : l ≠ 0) (h1 : l &&& 0x80 ≠ 0) (h2 : l &&& 0xE0 = 0xC0)
    (hc : c &&& 0xC0 = 0x80) :
    _isValidUtf8 [l] = false ∧ _isValidUtf8 [l, c] = true := by
  simp [_isValidUtf8, utf8Scan, h0, h1, h2, hc]

/-- A three-byte group: every proper prefix is held back, the whole group is accepted. -/
theorem scan_three_bytes (l c d : Nat) (h0 : l ≠ 0) (h1 : l &&& 0x80 ≠ 0)
    (h2 : l &&& 0xE0 ≠ 0xC0) (h3 : l &&& 0xF0 = 0xE0)
    (hc : c &&& 0xC0 = 0x80) (hd : d &&& 0xC0 = 0x80) :
    _isValidUtf8 [l] = false ∧ _isValidUtf8 [l, c] = false ∧ _isValidUtf8 [l, c, d] = true := by
  simp [_isValidUtf8, utf8Scan, h0, h1, h2, h3, hc, hd]

/-- A four-byte group: every proper prefix is held back, the whole group is accepted. -/
theorem scan_four_bytes (l c d e : Nat) (h0 : l ≠ 0) (h1 : l &&& 0x80 ≠ 0)
    (h2 : l &&& 0xE0 ≠ 0xC0) (h3 : l &&& 0xF0 ≠ 0xE0) (h4 : l &&& 0xF8 = 0xF0)
    (hc : c &&& 0xC0 = 0x80) (hd : d &&& 0xC0 = 0x80) (he : e &&& 0xC0 = 0x80) :
    _isValidUtf8 [l] = false ∧ _isValidUtf8 [l, c] = false ∧ _isValidUtf8 [l, c, d] = false ∧
      _isValidUtf8 [l, c, d, e] = true := by
  simp [_isValidUtf8, utf8Scan, h0, h1, h2, h3, h4, hc, hd, he]

/-- C3. Starting from an empty pending buffer, for every scalar value with a multi-byte
encoding and every split of the encoding into two non-empty halves, feeding the
first half returns the empty string and keeps the half pending, and feeding the
second half returns exactly the complete encoding and leaves nothing pending. -/
theorem reassemble_split_code_point (cp k : Nat) (hs : isScalarValue cp) (hm : 0x80 ≤ cp)
    (hk0 : 0 < k) (hk : k < (utf8Encode cp).length) :
    reassemble [] ((utf8Encode cp).take k) = ([], (utf8Encode cp).take k) ∧
    reassemble (reassemble [] ((utf8Encode cp).take k)).2 ((utf8Encode cp).drop k)
      = (utf8Encode cp, []) := by
  have hcp : cp < 0x110000 := by
    unfold isScalarValue at hs
    omega
  obtain ⟨m2, m3, m4, mc⟩ := encoded_byte_masks
  have n1 : ¬ cp < 0x80 := by omega
  by_cases h2 : cp < 0x800
  · have he : utf8Encode cp = [0xC0 + cp / 64, 0x80 + cp % 64] := by
      simp [utf8Encode, n1, h2]
    obtain ⟨a0, a1, a2⟩ := m2 (cp / 64) (by omega)
    have c1 := mc (cp % 64) (by omega)
    obtain ⟨v1, v2⟩ := scan_two_bytes _ _ a0 a1 a2 c1
    rw [he] at hk ⊢
    have hk1 : k = 1 := by
      simp only [List.length_cons, List.length_nil] at hk
      omega
    subst hk1
    have f1 := reassemble_of_invalid [] [0xC0 + cp / 64] (by simpa using v1)
    have f2 := reassemble_of_valid [0xC0 + cp / 64] [0x80 + cp % 64] (by simpa using v2)
    simp only [List.take, List.drop, List.nil_append] at f1 f2 ⊢
    rw [f1]
    exact ⟨rfl, f2⟩
  · by_cases h3 : cp < 0x10000
    · have he : utf8Encode cp = [0xE0 + cp / 4096, 0x80 + cp / 64 % 64, 0x80 + cp % 64] := by
        simp [utf8Encode, n1, h2, h3]
      obtain ⟨a0, a1, a2, a3⟩ := m3 (cp / 4096) (by omega)
      have c1 := mc (cp / 64 % 64) (by omega)
      have c2 := mc (cp % 64) (by omega)
      obtain ⟨v1, v2, v3⟩ := scan_three_bytes _ _ _ a0 a1 a2 a3 c1 c2
      rw [he] at hk ⊢
      have hk1 : k = 1 ∨ k = 2 := by
        simp only [List.length_cons, List.length_nil] at hk
        omega
      rcases hk1 with rfl | rfl
      · have f1 := reassemble_of_invalid [] [0xE0 + cp / 4096] (by simpa using v1)
        have f2 := reassemble_of_valid [0xE0 + cp / 4096] [0x80 + cp / 64 % 64, 0x80 + cp % 64]
          (by simpa using v3)
        simp only [List.take, List.drop, List.nil_append] at f1 f2 ⊢
        rw [f1]
        exact ⟨rfl, f2⟩
      · have f1 := reassemble_of_invalid [] [0xE0 + cp / 4096, 0x80 + cp / 64 % 64]
          (by simpa using v2)
        have f2 := reassemble_of_valid [0xE0 + cp / 4096, 0x80 + cp / 64 % 64] [0x80 + cp % 64]
          (by simpa using v3)
        simp only [List.take, List.drop, List.nil_append] at f1 f2 ⊢
        rw [f1]
        exact ⟨rfl, f2⟩
    · have he : utf8Encode cp =
          [0xF0 + cp / 262144, 0x80 + cp / 4096 % 64, 0x80 + cp / 64 % 64, 0x80 + cp % 64] := by
        simp [utf8Encode, n1, h2, h3]
      obtain ⟨a0, a1, a2, a3, a4⟩ := m4 (cp / 262144) (by omega)
      have c1 := mc (cp / 4096 % 64) (by omega)
      have c2 := mc (cp / 64 % 64) (by omega)
      have c3 := mc (cp % 64) (by omega)
      obtain ⟨v1, v2, v3, v4⟩ := scan_four_bytes _ _ _ _ a0 a1 a2 a3 a4 c1 c2 c3
      rw [he] at hk ⊢
      have hk1 : k = 1 ∨ k = 2 ∨ k = 3 := by
        simp only [List.length_cons, List.length_nil] at hk
        omega
      rcases hk1 with rfl | rfl | rfl
      · have f1 := reassemble_of_invalid [] [0xF0 + cp / 262144] (by simpa using v1)
        have f2 := reassemble_of_valid [0xF0 + cp / 262144]
          [0x80 + cp / 4096 % 64, 0x80 + cp / 64 % 64, 0x80 + cp % 64] (by simpa using v4)
        simp only [List.take, List.drop, List.nil_append] at f1 f2 ⊢
        rw [f1]
        exact ⟨rfl, f2⟩
      · have f1 := reassemble_of_invalid [] [0xF0 + cp / 262144, 0x80 + cp / 4096 % 64]
          (by simpa using v2)
        have f2 := reassemble_of_valid [0xF0 + cp / 262144, 0x80 + cp / 4096 % 64]
          [0x80 + cp / 64 % 64, 0x80 + cp % 64] (by simpa using v4)
        simp only [List.take, List.drop, List.nil_append] at f1 f2 ⊢
        rw [f1]
        exact ⟨rfl, f2⟩
      · have f1 := reassemble_of_invalid []
          [0xF0 + cp / 262144, 0x80 + cp / 4096 % 64, 0x80 + cp / 64 % 64] (by simpa using v3)
        have f2 := reassemble_of_valid
          [0xF0 + cp / 262144, 0x80 + cp / 4096 % 64, 0x80 + cp / 64 % 64] [0x80 + cp % 64]
          (by simpa using v4)
        simp only [List.take, List.drop, List.nil_append] at f1 f2 ⊢
        rw [f1]
        exact ⟨rfl, f2⟩

set_option maxRecDepth 100000 in
/-- C3, witness: the euro sign U+20AC, `E2 82 AC`, split after its first byte. -/
theorem reassemble_split_code_point_witness :
    isScalarValue 0x20AC ∧ 0x80 ≤ 0x20AC ∧ 0 < 1 ∧ 1 < (utf8Encode 0x20AC).length ∧
    reassemble [] ((utf8Encode 0x20AC).take 1) = ([], [0xE2]) ∧
    reassemble [0xE2] ((utf8Encode 0x20AC).drop 1) = ([0xE2, 0x82, 0xAC], []) :=
  have h := reassemble_split_code_point 0x20AC 1 (by unfold isScalarValue; decide) (by decide)
    (by decide) (by decide)
  ⟨by unfold isScalarValue; decide, by decide, by decide, by decide, h.1, h.2⟩

theorem reassemble_cases (cache piece : List Nat) :
    (_isValidUtf8 (cache ++ piece) = true ∧ reassemble cache piece = (cache ++ piece, [])) ∨
    (_isValidUtf8 (cache ++ piece) = false ∧ reassemble cache piece = ([], cache ++ piece)) := by
  cases h : _isValidUtf8 (cache ++ piece)
  · exact Or.inr ⟨rfl, reassemble_of_invalid _ _ h⟩
  · exact Or.inl ⟨rfl, reassemble_of_valid _ _ h⟩

/-- No encoding of a scalar value starts with the byte `C0`. -/
theorem not_wellFormed_overlong : ¬ WellFormedUtf8 [0xC0, 0x80] := by
  rintro ⟨cps, _, h⟩
  cases cps with
  | nil => simp at h
  | cons c cs =>
    simp only [List.map_cons, List.flatten_cons] at h
    unfold utf8Encode at h
    split_ifs at h with h1 h2 h3 <;> simp at h <;> omega

/-- C4, counterexample. The pieces `C0` and `80` (the overlong two-byte form of NUL) are
fed to an empty pending buffer one after the other: the first feed returns the
empty string, the second returns the text `C0 80`, which is not empty and is
not well-formed UTF-8.  The same two strings are what two calls of
`completionLoop` return when the sampler draws the byte tokens `C0` and `80`. -/
theorem returned_text_not_well_formed :
    (feedAll [] [[0xC0], [0x80]]).1 = [[], [0xC0, 0x80]] ∧
    (pollPieces byteEngine 2 (afterStart byteEngine overlongSession queryHi)).map Prod.fst
      = some [[], [0xC0, 0x80]] ∧
    [0xC0, 0x80] ≠ ([] : List Nat) ∧ [0xC0, 0x80] ≠ endMarker ∧
    ¬ WellFormedUtf8 [0xC0, 0x80] :=
  ⟨by decide, rfl, by decide, by decide, not_wellFormed_overlong⟩

theorem feedAll_structural (frags : List (List Nat)) :
    ∀ cache : List Nat, (∀ b ∈ cache, b < 256) → (∀ f ∈ frags, ∀ b ∈ f, b < 256) →
      ∀ t ∈ (feedAll cache frags).1, StructuralUtf8 (cStr t) := by
  induction frags with
  | nil =>
    intro cache _ _ t ht
    simp [feedAll] at ht
  | cons f fs ih =>
    intro cache hc hf t ht
    have hcf : ∀ b ∈ cache ++ f, b < 256 := by
      intro b hb
      rcases List.mem_append.mp hb with hb | hb
      · exact hc b hb
      · exact hf f (List.mem_cons_self _ _) b hb
    have hfs : ∀ g ∈ fs, ∀ b ∈ g, b < 256 := fun g hg => hf g (List.mem_cons_of_mem _ hg)
    simp only [feedAll, List.mem_cons] at ht
    rcases reassemble_cases cache f with ⟨hv, hr⟩ | ⟨_, hr⟩
    · rw [hr] at ht
      rcases ht with rfl | ht
      · exact isValidUtf8_structural _ _ (Nat.le_refl _) hcf hv
      · exact ih [] (by simp) hfs t ht
    · rw [hr] at ht
      rcases ht with rfl | ht
      · exact StructuralUtf8.nil
      · exact ih (cache ++ f) hcf hfs t ht

/-- C4, as amended. For every pending buffer and every sequence of fragments fed to the
reassembler, every text returned is, up to its first NUL byte, a sequence of
complete groups in which the lead byte (`0xxxxxxx`, `110xxxxx`, `1110xxxx`,
`11110xxx`) is followed by the number of continuation bytes `10xxxxxx` it
announces; a returned text without a NUL byte is such a sequence as a whole. -/
theorem returned_text_structural (cache : List Nat) (frags : List (List Nat))
    (hc : ∀ b ∈ cache, b < 256) (hf : ∀ f ∈ frags, ∀ b ∈ f, b < 256)
    (t : List Nat) (ht : t ∈ (feedAll cache frags).1) :
    StructuralUtf8 (cStr t) ∧ ((∀ b ∈ t, b ≠ 0) → StructuralUtf8 t) := by
  have h := feedAll_structural frags cache hc hf t ht
  refine ⟨h, fun hnz => ?_⟩
  rw [cStr_of_nonzero t hnz] at h
  exact h

/-- C4 as amended, witness: the euro sign fed in two pieces. -/
theorem returned_text_structural_witness :
    (feedAll [] [[0xE2], [0x82, 0xAC]]).1 = [[], [0xE2, 0x82, 0xAC]] ∧
    StructuralUtf8 [0xE2, 0x82, 0xAC] :=
  ⟨by decide,
    (returned_text_structural [] [[0xE2], [0x82, 0xAC]] (by simp) (by decide)
      [0xE2, 0x82, 0xAC] (by decide)).2 (by decide)⟩

theorem feedAll_flatten (frags : List (List Nat)) :
    ∀ cache : List Nat,
      (feedAll cache frags).1.flatten ++ (feedAll cache frags).2 = cache ++ frags.flatten := by
  induction frags with
  | nil =>
    intro cache
    simp [feedAll]
  | cons f fs ih =>
    intro cache
    simp only [feedAll, List.flatten_cons, List.append_assoc]
    rw [ih]
    rcases reassemble_cases cache f with ⟨_, hr⟩ | ⟨_, hr⟩ <;> simp [hr]

/-- C5. A feed either returns the whole buffer (the old pending bytes followed by the
fragment) and leaves the pending buffer empty, or returns the empty string and
leaves the old pending bytes followed by the fragment pending; and for every
sequence of feeds from an empty buffer, the texts returned, one after the
other, followed by the final pending buffer are the fragments fed, one after
the other. -/
theorem reassemble_all_or_nothing (cache piece : List Nat) (frags : List (List Nat)) :
    (reassemble cache piece = (cache ++ piece, []) ∨
      reassemble cache piece = ([], cache ++ piece)) ∧
    (feedAll [] frags).1.flatten ++ (feedAll [] frags).2 = frags.flatten := by
  constructor
  · rcases reassemble_cases cache piece with ⟨_, hr⟩ | ⟨_, hr⟩
    · exact Or.inl hr
    · exact Or.inr hr
  · simpa using feedAll_flatten frags []

/-- C6, counterexample. With the lead byte `E2` pending (what feeding `E2` to an empty
buffer leaves), the ASCII fragment `A` is held back: the feed returns the empty
string.  So do the two calls of `completionLoop` in which the sampler draws the
byte token `E2` and then `A`. -/
theorem ascii_fragment_held_back :
    reassemble [] [0xE2] = ([], [0xE2]) ∧
    [0x41] ≠ ([] : List Nat) ∧ (∀ b ∈ [0x41], 0x01 ≤ b ∧ b ≤ 0x7F) ∧
    (reassemble [0xE2] [0x41]).1 = [] ∧
    (pollPieces byteEngine 2 (afterStart byteEngine heldBackSession queryHi)).map Prod.fst
      = some [[], []] :=
  ⟨by decide, by decide, by decide, by decide, rfl⟩

/-- C6, as amended. For every pending buffer that itself passes `_isValidUtf8` (the empty
buffer, which is what every flush leaves, is one) and every non-empty fragment
whose bytes are all ASCII (`01` to `7F`), the feed returns the pending bytes
followed by the fragment, a non-empty text, and leaves nothing pending. -/
theorem ascii_fragment_flushes (cache frag : List Nat) (hv : _isValidUtf8 cache = true)
    (hne : frag ≠ []) (hascii : ∀ b ∈ frag, 0x01 ≤ b ∧ b ≤ 0x7F) :
    reassemble cache frag = (cache ++ frag, []) ∧ (reassemble cache frag).1 ≠ [] := by
  have h : _isValidUtf8 (cache ++ frag) = true := utf8Scan_append_ascii frag hascii cache 0 hv
  have hr := reassemble_of_valid cache frag h
  refine ⟨hr, ?_⟩
  rw [hr]
  simp [hne]

/-- C6 as amended, witness: `Hi` fed to the empty buffer. -/
theorem ascii_fragment_flushes_witness :
    _isValidUtf8 [] = true ∧ reassemble [] [0x48, 0x69] = ([0x48, 0x69], []) :=
  ⟨rfl, (ascii_fragment_flushes [] [0x48, 0x69] rfl (by decide) (by decide)).1⟩


theorem completionLoopCore_piece {E : Type} (L : Llama E) (s s' : LLMInference E) (t : List Nat)
    (h : completionLoopCore L s = (.piece t, s')) :
    (t, s'._cacheResponseTokens)
        = reassemble s._cacheResponseTokens (L.token_to_piece s'._currToken) ∧
      L.vocab_is_eog s'._currToken = false ∧
      s'._response = s._response ++ t ∧ s'._messages = s._messages ∧
      s'._storeChats = s._storeChats ∧ s'._chatTemplate = s._chatTemplate ∧
      s'.is_multimodal_model = s.is_multimodal_model ∧ s'._prevLen = s._prevLen ∧
      s'._formattedMessages = s._formattedMessages ∧ s'.videoFrames = s.videoFrames := by
  unfold completionLoopCore at h
  split at h
  · simp at h
  · simp at h
  · dsimp only at h
    split_ifs at h with h1 h2 h3 h4 <;>
      simp only [Prod.mk.injEq, LoopExit.piece.injEq, reduceCtorEq, false_and] at h <;>
      obtain ⟨rfl, rfl⟩ := h <;> simp_all [reassemble]

theorem completionLoopCore_endOfGeneration {E : Type} (L : Llama E) (s s' : LLMInference E)
    (h : completionLoopCore L s = (.endOfGeneration, s')) :
    s'._messages = s._messages ++ [{ role := "assistant", content := cStr s._response }] ∧
      s'._response = [] ∧ L.vocab_is_eog s'._currToken = true ∧
      s'._cacheResponseTokens = s._cacheResponseTokens ∧
      s'._storeChats = s._storeChats ∧ s'._chatTemplate = s._chatTemplate ∧
      s'.is_multimodal_model = s.is_multimodal_model ∧ s'._prevLen = s._prevLen ∧
      s'._formattedMessages = s._formattedMessages ∧ s'.videoFrames = s.videoFrames := by
  unfold completionLoopCore at h
  split at h
  · simp at h
  · simp at h
  · dsimp only at h
    split_ifs at h with h1 h2 h3 h4 <;>
      simp only [Prod.mk.injEq, reduceCtorEq, false_and, true_and] at h <;>
      subst h <;> simp_all [addChatMessage]

theorem pollPieces_spec {E : Type} (L : Llama E) (n : Nat) :
    ∀ (s s' : LLMInference E) (frags : List (List Nat)),
      pollPieces L n s = some (frags, s') →
      frags.length = n ∧ s'._response = s._response ++ frags.flatten ∧
      s'._messages = s._messages ∧
      s'._storeChats = s._storeChats ∧ s'._chatTemplate = s._chatTemplate ∧
      s'.is_multimodal_model = s.is_multimodal_model ∧ s'._prevLen = s._prevLen := by
  induction n with
  | zero =>
    intro s s' frags h
    simp only [pollPieces, Option.some.injEq, Prod.mk.injEq] at h
    obtain ⟨rfl, rfl⟩ := h
    simp
  | succ n ih =>
    intro s s' frags h
    unfold pollPieces at h
    split at h
    · rename_i text s1 hstep
      split at h
      · rename_i r hr
        simp only [Option.some.injEq, Prod.mk.injEq] at h
        obtain ⟨rfl, rfl⟩ := h
        obtain ⟨p1, p2, p3, p4, p5, p6, p7⟩ := ih s1 r.2 r.1 hr
        obtain ⟨_, _, q3, q4, q5, q6, q7, q8, _⟩ := completionLoopCore_piece L s s1 text hstep
        refine ⟨by simp [p1], ?_, ?_, ?_, ?_, ?_, ?_⟩
        · rw [p2, q3]; simp
        · rw [p3, q4]
        · rw [p4, q5]
        · rw [p5, q6]
        · rw [p6, q7]
        · rw [p7, q8]
      · simp at h
    · simp at h


theorem startCompletion_ok {E : Type} (L : Llama E) (s s1 : LLMInference E) (query : List Nat)
    (h : startCompletion L s query = (.ok (), s1)) :
    s1._messages = s._messages ++ [{ role := "user", content := cStr query }] ∧
      s1._response = s._response ∧ s1._cacheResponseTokens = s._cacheResponseTokens ∧
      s1._storeChats = s._storeChats ∧ s1._chatTemplate = s._chatTemplate ∧
      s1.is_multimodal_model = s.is_multimodal_model ∧
      (∃ prompt, s1._batch = some (promptBatch (L.tokenize prompt))) := by
  unfold startCompletion at h
  split at h
  · simp at h
  · dsimp only at h
    split at h
    · simp at h
    · rename_i prompt hp
      simp only [Prod.mk.injEq, true_and] at h
      subst h
      refine ⟨?_, ?_, ?_, ?_, ?_, ?_, ⟨prompt, rfl⟩⟩ <;>
        simp only [addChatMessage] <;> split_ifs <;> rfl

theorem stopCompletion_state {E : Type} (L : Llama E) (s : LLMInference E) :
    (stopCompletion L s).2._messages =
        (if s._storeChats ∧ s._response ≠ [] then
          s._messages ++ [{ role := "assistant", content := cStr s._response }]
        else s._messages) ∧
      (stopCompletion L s).2._response = [] ∧
      (stopCompletion L s).2._prevLen =
        (if ¬ s.is_multimodal_model ∧ s._chatTemplate.isSome then
          (llama_chat_apply_template L s._chatTemplate (stopCompletion L s).2._messages false []).1
        else s._prevLen) := by
  unfold stopCompletion
  dsimp only
  split_ifs <;> simp_all [addChatMessage]

theorem stopCompletion_ok {E : Type} (L : Llama E) (s s' : LLMInference E) (tmpl : List Nat)
    (h : stopCompletion L s = (.ok (), s')) (htext : s.is_multimodal_model = false)
    (htmpl : s._chatTemplate = some tmpl) :
    ∃ text, L.chat_template_text (some tmpl) s'._messages false = some text ∧
      s'._prevLen = (text.length : Int) := by
  unfold stopCompletion at h
  simp only [htext, htmpl, Option.isSome_some, Bool.false_eq_true, not_false_eq_true, and_self,
    if_true] at h
  cases hr : L.chat_template_text (some tmpl)
      (if s._storeChats = true ∧ s._response ≠ [] then addChatMessage s s._response "assistant"
        else s)._messages false with
  | none =>
    split_ifs at h <;> simp_all [llama_chat_apply_template, addChatMessage]
  | some text =>
    refine ⟨text, ?_⟩
    split_ifs at h <;> simp only [Prod.mk.injEq, reduceCtorEq, false_and, true_and] at h <;>
      subst h <;> simp_all [llama_chat_apply_template, addChatMessage]

theorem nonEmptyFragments_flatten (frags : List (List Nat)) :
    (nonEmptyFragments frags).flatten = frags.flatten := by
  induction frags with
  | nil => rfl
  | cons f fs ih =>
    cases f with
    | nil => simpa [nonEmptyFragments] using ih
    | cons b bs =>
      simp only [nonEmptyFragments, List.filter_cons, List.isEmpty_cons, Bool.not_false, if_true,
        List.flatten_cons] at ih ⊢
      rw [ih]

theorem flatten_nonzero (frags : List (List Nat)) (h : ∀ f ∈ frags, ∀ b ∈ f, b ≠ 0) :
    ∀ b ∈ frags.flatten, b ≠ 0 := by
  intro b hb
  obtain ⟨f, hf, hbf⟩ := List.mem_flatten.mp hb
  exact h f hf b hbf

/-! ## The turn -/

/-- C1, counterexample. On a loaded session with an empty `_response`, `startCompletion("Hi")`
succeeds, two calls of `completionLoop` return the strings `A` and the NUL byte
(both non-empty), and the third call samples the end-of-generation token and
returns the end marker.  The assistant message it appends has the content `A`,
whereas the non-empty fragments returned, one after the other, are `A` followed
by the NUL byte. -/
theorem committed_response_cut_at_nul :
    nulSession._response = [] ∧
    (startCompletion byteEngine nulSession queryHi).1 = .ok () ∧
    (pollPieces byteEngine 2 (afterStart byteEngine nulSession queryHi)).map Prod.fst
      = some [[0x41], [0x00]] ∧
    completionLoop byteEngine (afterPieces byteEngine 2 (afterStart byteEngine nulSession queryHi))
      = (.ok endMarker,
          afterLoop byteEngine (afterPieces byteEngine 2 (afterStart byteEngine nulSession queryHi))) ∧
    (afterLoop byteEngine
        (afterPieces byteEngine 2 (afterStart byteEngine nulSession queryHi)))._messages
      = (afterPieces byteEngine 2 (afterStart byteEngine nulSession queryHi))._messages
          ++ [{ role := "assistant", content := [0x41] }] ∧
    (nonEmptyFragments [[0x41], [0x00]]).flatten = [0x41, 0x00] ∧
    [0x41] ≠ [0x41, 0x00] :=
  ⟨rfl, rfl, rfl, rfl, rfl, rfl, by decide⟩

/-- C1, as amended. In a turn run by the call protocol on a session whose `_response` is
empty (as it is after `loadModel`, after the call that returned the end marker
and after `stopCompletion`): when `startCompletion` has succeeded, `n` calls of
`completionLoop` have returned the strings `frags`, and the next call samples an
end-of-generation token, that call returns the end marker and appends one
assistant message whose content is the C string of the concatenation, in
order, of the non-empty fragments, that is the concatenation up to its first
NUL byte; when no fragment holds a NUL byte the content is the whole
concatenation. -/
theorem end_marker_commits_fragments {E : Type} (L : Llama E) (s0 s1 s2 s3 : LLMInference E)
    (query : List Nat) (n : Nat) (frags : List (List Nat))
    (hprev : s0._response = [])
    (hstart : startCompletion L s0 query = (.ok (), s1))
    (hloop : pollPieces L n s1 = some (frags, s2))
    (hend : completionLoopCore L s2 = (.endOfGeneration, s3)) :
    completionLoop L s2 = (.ok endMarker, s3) ∧
    s3._messages = s2._messages
      ++ [{ role := "assistant", content := cStr (nonEmptyFragments frags).flatten }] ∧
    ((∀ f ∈ frags, ∀ b ∈ f, b ≠ 0) →
      s3._messages = s2._messages
        ++ [{ role := "assistant", content := (nonEmptyFragments frags).flatten }]) := by
  obtain ⟨_, hr1, _⟩ := startCompletion_ok L s0 s1 query hstart
  obtain ⟨_, hr2, _⟩ := pollPieces_spec L n s1 s2 frags hloop
  obtain ⟨hm, _⟩ := completionLoopCore_endOfGeneration L s2 s3 hend
  have hresp : s2._response = frags.flatten := by
    rw [hr2, hr1, hprev, List.nil_append]
  rw [hresp] at hm
  rw [nonEmptyFragments_flatten]
  refine ⟨?_, hm, fun hnz => ?_⟩
  · simp [completionLoop, hend, LoopExit.result]
  · rw [hm, cStr_of_nonzero _ (flatten_nonzero frags hnz)]

/-- C1 as amended, witness: the turn that answers `Hi` with `O` and `K`. -/
theorem end_marker_commits_fragments_witness :
    (afterLoop byteEngine
        (afterPieces byteEngine 2 (afterStart byteEngine (okSession true) queryHi)))._messages
      = (afterPieces byteEngine 2 (afterStart byteEngine (okSession true) queryHi))._messages
          ++ [{ role := "assistant", content := [0x4F, 0x4B] }] :=
  (end_marker_commits_fragments byteEngine (okSession true)
    (afterStart byteEngine (okSession true) queryHi)
    (afterPieces byteEngine 2 (afterStart byteEngine (okSession true) queryHi))
    (afterLoop byteEngine
      (afterPieces byteEngine 2 (afterStart byteEngine (okSession true) queryHi)))
    queryHi 2 [[0x4F], [0x4B]] rfl rfl rfl rfl).2.2 (by decide)

/-- C2. For every session state with a loaded engine and a live batch, if the highest
occupied position of sequence 0 plus one plus the number of tokens of the batch
exceeds the context size (the sum being an `int`), `completionLoop` throws
`"context size reached"`; the state it leaves differs from the state it found
in `_nCtxUsed` only, so the engine state is the one it found, and the outcome
is the same for every engine with the same context size and the same sequence
memory query, whatever its `decode` and its sampler do: neither is called. -/
theorem completionLoop_context_size_reached {E : Type} (L : Llama E) (s : LLMInference E)
    (e : E) (batch : List BatchEntry)
    (hctx : s._ctx = some e) (hbatch : s._batch = some batch)
    (hint : L.memory_seq_pos_max e + 1 + (batch.length : Int) < 2147483648)
    (hover : L.memory_seq_pos_max e + 1 + (batch.length : Int) > (L.n_ctx : Int)) :
    completionLoop L s
      = (.error "context size reached", { s with _nCtxUsed := L.memory_seq_pos_max e + 1 }) ∧
    (completionLoop L s).2._ctx = s._ctx ∧
    (∀ M : Llama E, M.n_ctx = L.n_ctx → M.memory_seq_pos_max = L.memory_seq_pos_max →
      completionLoop M s = completionLoop L s) := by
  have hu : toUInt32 (L.memory_seq_pos_max e + 1 + (batch.length : Int)) > (L.n_ctx : Int) := by
    unfold toUInt32
    rw [Int.emod_eq_of_lt (by omega) (by omega)]
    exact hover
  have key : ∀ M : Llama E, M.n_ctx = L.n_ctx → M.memory_seq_pos_max = L.memory_seq_pos_max →
      completionLoop M s
        = (.error "context size reached", { s with _nCtxUsed := L.memory_seq_pos_max e + 1 }) := by
    intro M h1 h2
    unfold completionLoop completionLoopCore
    simp only [hctx, hbatch, h1, h2, hu, if_true, LoopExit.result]
  refine ⟨key L rfl rfl, ?_, fun M h1 h2 => ?_⟩
  · rw [key L rfl rfl]
  · rw [key M h1 h2, key L rfl rfl]

set_option maxRecDepth 100000 in
/-- C2, witness: the query of 70 letters makes a prompt batch of 72 tokens for a
context of 64 positions. -/
theorem completionLoop_context_size_reached_witness :
    (completionLoop byteEngine (afterStart byteEngine (okSession true) longQuery)).1
      = .error "context size reached" ∧
    (completionLoop byteEngine (afterStart byteEngine (okSession true) longQuery)).2._ctx
      = (afterStart byteEngine (okSession true) longQuery)._ctx :=
  have h := completionLoop_context_size_reached byteEngine
    (afterStart byteEngine (okSession true) longQuery)
    { positions := [], script := [0x4F, 0x4B, 256, 0x59] }
    (promptBatch (byteEngine.tokenize (longQuery ++ [0x0A, 0x3E])))
    rfl (by decide) (by decide) (by decide)
  ⟨by rw [h.1], h.2.1⟩

/-- C7, counterexample. A session loaded with `storeChats = true` and no template argument
from a model without a chat template has an empty history.  `startCompletion("Hi")`
succeeds, three calls of `completionLoop` return `O`, the NUL byte and `K`,
the fourth returns the end marker, and `stopCompletion` succeeds.  The history
then holds `user:"Hi"` and `assistant:"O"`, not the generated response `O`, NUL,
`K`; and `_prevLen` is 0, whereas the two messages rendered without a generation
prompt have length 5: `stopCompletion` recomputes `_prevLen` only when
`_chatTemplate` is not null. -/
theorem first_turn_without_template :
    noTemplateSession._storeChats = true ∧ noTemplateSession._messages = [] ∧
    (startCompletion noTemplateEngine noTemplateSession queryHi).1 = .ok () ∧
    (pollPieces noTemplateEngine 3 (afterStart noTemplateEngine noTemplateSession queryHi)).map
      Prod.fst = some [[0x4F], [0x00], [0x4B]] ∧
    (completionLoopCore noTemplateEngine
      (afterPieces noTemplateEngine 3 (afterStart noTemplateEngine noTemplateSession queryHi))).1
      = .endOfGeneration ∧
    (stopCompletion noTemplateEngine
      (afterLoop noTemplateEngine
        (afterPieces noTemplateEngine 3
          (afterStart noTemplateEngine noTemplateSession queryHi)))).1 = .ok () ∧
    (afterTurn noTemplateEngine noTemplateSession queryHi 3)._messages
      = [{ role := "user", content := queryHi }, { role := "assistant", content := [0x4F] }] ∧
    (afterTurn noTemplateEngine noTemplateSession queryHi 3)._prevLen = 0 ∧
    noTemplateEngine.chat_template_text
        (afterTurn noTemplateEngine noTemplateSession queryHi 3)._chatTemplate
        (afterTurn noTemplateEngine noTemplateSession queryHi 3)._messages false
      = some [0x48, 0x69, 0x0A, 0x4F, 0x0A] :=
  ⟨rfl, rfl, rfl, rfl, rfl, rfl, rfl, rfl, rfl⟩

/-- C7, as amended. On a text session with a chat template, an empty history and an empty
`_response` (with `storeChats = true`; the proof does not use the flag, the
same holds with `storeChats = false`), for every query and every generated response:
after a successful `startCompletion(query)`, `n` calls of `completionLoop` that
return the strings `frags`, the call that returns the end marker, and a
successful `stopCompletion`, the history holds exactly two messages, the user
message with the query and the assistant message with the response
(`stopCompletion` commits nothing a second time), both as C strings, that is up
to their first NUL byte, hence the query and the response themselves when they
hold no NUL byte; and `_prevLen` is the length of the text the template renders
for those two messages without a generation prompt. -/
theorem first_turn_history_and_prevLen {E : Type} (L : Llama E)
    (s0 s1 s2 s3 s4 : LLMInference E) (tmpl query : List Nat) (n : Nat)
    (frags : List (List Nat))
    (hhist : s0._messages = []) (hresp : s0._response = [])
    (htext : s0.is_multimodal_model = false) (htmpl : s0._chatTemplate = some tmpl)
    (hstart : startCompletion L s0 query = (.ok (), s1))
    (hloop : pollPieces L n s1 = some (frags, s2))
    (hend : completionLoopCore L s2 = (.endOfGeneration, s3))
    (hstop : stopCompletion L s3 = (.ok (), s4)) :
    s4._messages = [{ role := "user", content := cStr query },
                    { role := "assistant", content := cStr frags.flatten }] ∧
    (∃ text, L.chat_template_text (some tmpl) s4._messages false = some text ∧
      s4._prevLen = (text.length : Int)) ∧
    ((∀ b ∈ query, b ≠ 0) → (∀ f ∈ frags, ∀ b ∈ f, b ≠ 0) →
      s4._messages = [{ role := "user", content := query },
                      { role := "assistant", content := frags.flatten }]) := by
  obtain ⟨a1, a2, _, _, a5, a6, _⟩ := startCompletion_ok L s0 s1 query hstart
  obtain ⟨_, b2, b3, _, b5, b6, _⟩ := pollPieces_spec L n s1 s2 frags hloop
  obtain ⟨c1, c2, _, _, _, c6, c7, _⟩ := completionLoopCore_endOfGeneration L s2 s3 hend
  have hresp2 : s2._response = frags.flatten := by
    rw [b2, a2, hresp, List.nil_append]
  have hmsg3 : s3._messages = [{ role := "user", content := cStr query },
      { role := "assistant", content := cStr frags.flatten }] := by
    rw [c1, b3, a1, hhist, hresp2]
    rfl
  have htext3 : s3.is_multimodal_model = false := by rw [c7, b6, a6, htext]
  have htmpl3 : s3._chatTemplate = some tmpl := by rw [c6, b5, a5, htmpl]
  have hs4 : s4 = (stopCompletion L s3).2 := by rw [hstop]
  have hmsg4 : s4._messages = s3._messages := by
    rw [hs4, (stopCompletion_state L s3).1, c2]
    simp
  have hm : s4._messages = [{ role := "user", content := cStr query },
      { role := "assistant", content := cStr frags.flatten }] := by rw [hmsg4, hmsg3]
  refine ⟨hm, stopCompletion_ok L s3 s4 tmpl hstop htext3 htmpl3, fun hq hf => ?_⟩
  rw [hm, cStr_of_nonzero query hq, cStr_of_nonzero _ (flatten_nonzero frags hf)]

/-- C7 as amended, witness: the first turn of a session with a template, `Hi` answered by
`O` and `K`; the two messages render to the six bytes of `Hi`, line feed, `OK`,
line feed. -/
theorem first_turn_history_and_prevLen_witness :
    (afterTurn byteEngine (okSession true) queryHi 2)._messages
      = [{ role := "user", content := queryHi }, { role := "assistant", content := [0x4F, 0x4B] }] ∧
    (afterTurn byteEngine (okSession true) queryHi 2)._prevLen = 6 :=
  have h := first_turn_history_and_prevLen byteEngine (okSession true)
    (afterStart byteEngine (okSession true) queryHi)
    (afterPieces byteEngine 2 (afterStart byteEngine (okSession true) queryHi))
    (afterLoop byteEngine (afterPieces byteEngine 2 (afterStart byteEngine (okSession true) queryHi)))
    (afterTurn byteEngine (okSession true) queryHi 2)
    byteTemplate queryHi 2 [[0x4F], [0x4B]] rfl rfl rfl rfl rfl rfl rfl rfl
  ⟨h.2.2 (by decide) (by decide), rfl⟩

/-- The tokens of the batch built by `startCompletion` are the prompt tokens, in order. -/
theorem promptBatch_token (tokens : List Int) :
    (promptBatch tokens).map BatchEntry.token = tokens := by
  unfold promptBatch
  rw [List.map_map]
  exact List.enum_map_snd tokens

/-- The positions of the batch built by `startCompletion` are 0, 1, 2, and so on, whatever
the engine memory holds. -/
theorem promptBatch_pos (tokens : List Int) :
    (promptBatch tokens).map BatchEntry.pos = (List.range tokens.length).map Int.ofNat := by
  unfold promptBatch
  rw [List.map_map, ← List.enum_map_fst tokens, List.map_map]
  rfl

/-- On a loaded session `startCompletion` appends the user message to the history and
removes nothing from it, whatever `_storeChats` is and whether or not it throws. -/
theorem startCompletion_messages {E : Type} (L : Llama E) (s : LLMInference E)
    (query : List Nat) (e : E) (h : s._ctx = some e) :
    (startCompletion L s query).2._messages
      = s._messages ++ [{ role := "user", content := cStr query }] := by
  unfold startCompletion
  simp only [h]
  split <;> simp only [addChatMessage] <;> split_ifs <;> rfl

/-- C8, the code at the failing input. On a session with `storeChats = false`, the first
turn (`Hi`, answered by `O` and `K`, end marker, `stopCompletion`) is followed by
`startCompletion("Yo")`: the history rendered into the second prompt holds three
messages, the first user query and the first assistant response before the
second user query, and the prompt tokens are those of all three. -/
theorem history_kept_without_storeChats :
    (okSession false)._storeChats = false ∧
    (startCompletion byteEngine (okSession false) queryHi).1 = .ok () ∧
    (pollPieces byteEngine 2 (afterStart byteEngine (okSession false) queryHi)).map Prod.fst
      = some [[0x4F], [0x4B]] ∧
    (completionLoopCore byteEngine
      (afterPieces byteEngine 2 (afterStart byteEngine (okSession false) queryHi))).1
      = .endOfGeneration ∧
    (stopCompletion byteEngine
      (afterLoop byteEngine
        (afterPieces byteEngine 2 (afterStart byteEngine (okSession false) queryHi)))).1
      = .ok () ∧
    (startCompletion byteEngine (afterTurn byteEngine (okSession false) queryHi 2) queryYo).1
      = .ok () ∧
    (afterStart byteEngine (afterTurn byteEngine (okSession false) queryHi 2) queryYo)._messages
      = [{ role := "user", content := queryHi }, { role := "assistant", content := [0x4F, 0x4B] },
         { role := "user", content := queryYo }] ∧
    (afterStart byteEngine (afterTurn byteEngine (okSession false) queryHi 2) queryYo)._promptTokens
      = [0x48, 0x69, 0x0A, 0x4F, 0x4B, 0x0A, 0x59, 0x6F, 0x0A, 0x3E] :=
  ⟨rfl, rfl, rfl, rfl, rfl, rfl, rfl, rfl⟩

/-- C9, the code at the failing input. On a session with `storeChats = true`, after the
first turn (`Hi`, answered by `O` and `K`, end marker, `stopCompletion`) six
positions of sequence 0 are occupied.  `startCompletion("Yo")` builds a batch of
the four tokens of the new-content slice, each with sequence id 0, and
positions 0, 1, 2, 3 instead of 6, 7, 8, 9. -/
theorem second_turn_batch_positions :
    (okSession true)._storeChats = true ∧
    (startCompletion byteEngine (afterTurn byteEngine (okSession true) queryHi 2) queryYo).1
      = .ok () ∧
    (afterStart byteEngine (afterTurn byteEngine (okSession true) queryHi 2) queryYo)._ctx.map
      (fun e => byteEngine.memory_seq_pos_max e + 1) = some 6 ∧
    (afterStart byteEngine (afterTurn byteEngine (okSession true) queryHi 2) queryYo)._batch.map
      (List.map BatchEntry.token) = some [0x59, 0x6F, 0x0A, 0x3E] ∧
    (afterStart byteEngine (afterTurn byteEngine (okSession true) queryHi 2) queryYo)._batch.map
      (List.map BatchEntry.seq_id) = some [[0], [0], [0], [0]] ∧
    (afterStart byteEngine (afterTurn byteEngine (okSession true) queryHi 2) queryYo)._batch.map
      (List.map BatchEntry.pos) = some [0, 1, 2, 3] :=
  ⟨rfl, rfl, rfl, rfl, rfl, rfl⟩

/-! ## Rendering the history -/

theorem llama_chat_apply_template_length {E : Type} (L : Llama E) (tmpl : Option (List Nat))
    (msgs : List ChatMessage) (add_ass : Bool) (buf : List Nat) :
    (llama_chat_apply_template L tmpl msgs add_ass buf).2.length = buf.length := by
  unfold llama_chat_apply_template
  cases L.chat_template_text tmpl msgs add_ass with
  | none => rfl
  | some text => simp

/-- The engine reads the capacity of the buffer and nothing else of it. -/
theorem llama_chat_apply_template_congr {E : Type} (L : Llama E) (tmpl : Option (List Nat))
    (msgs : List ChatMessage) (add_ass : Bool) (buf buf1 : List Nat)
    (hr : L.chat_template_text tmpl msgs add_ass ≠ none) (h : buf1.length = buf.length) :
    llama_chat_apply_template L tmpl msgs add_ass buf1
      = llama_chat_apply_template L tmpl msgs add_ass buf := by
  unfold llama_chat_apply_template
  cases ht : L.chat_template_text tmpl msgs add_ass with
  | none => exact absurd ht hr
  | some text => simp [h]

theorem applyTemplateGrow_idempotent {E : Type} (L : Llama E) (tmpl : Option (List Nat))
    (msgs : List ChatMessage) (buf : List Nat) :
    applyTemplateGrow L tmpl msgs (applyTemplateGrow L tmpl msgs buf).2
      = applyTemplateGrow L tmpl msgs buf := by
  cases ht : L.chat_template_text tmpl msgs true with
  | none =>
    have h1 : ∀ b : List Nat, llama_chat_apply_template L tmpl msgs true b = (-1, b) := by
      intro b
      simp [llama_chat_apply_template, ht]
    have h2 : ∀ b : List Nat, applyTemplateGrow L tmpl msgs b = (-1, b) := by
      intro b
      unfold applyTemplateGrow
      rw [h1]
      have : ¬ ((-1 : Int) > (b.length : Int)) := by omega
      simp only [this, if_false]
    rw [h2 buf, h2 buf]
  | some text =>
    have hne : L.chat_template_text tmpl msgs true ≠ none := by simp [ht]
    have hlen : ∀ b : List Nat,
        (llama_chat_apply_template L tmpl msgs true b).1 = (text.length : Int) := by
      intro b
      simp [llama_chat_apply_template, ht]
    have hfits : ∀ b : List Nat, ¬ ((text.length : Int) > (b.length : Int)) →
        applyTemplateGrow L tmpl msgs b = llama_chat_apply_template L tmpl msgs true b := by
      intro b hb
      unfold applyTemplateGrow
      simp only [hlen, hb, if_false]
    by_cases hg : (text.length : Int) > (buf.length : Int)
    · have hfirst : applyTemplateGrow L tmpl msgs buf
          = llama_chat_apply_template L tmpl msgs true
              (vectorResize (llama_chat_apply_template L tmpl msgs true buf).2 text.length) := by
        unfold applyTemplateGrow
        simp only [hlen, hg, if_true, Int.toNat_ofNat]
      have hsize : (applyTemplateGrow L tmpl msgs buf).2.length = text.length := by
        rw [hfirst, llama_chat_apply_template_length]
        simp only [vectorResize, List.length_append, List.length_take, List.length_replicate,
          llama_chat_apply_template_length]
        omega
      have hsecond : applyTemplateGrow L tmpl msgs (applyTemplateGrow L tmpl msgs buf).2
          = llama_chat_apply_template L tmpl msgs true (applyTemplateGrow L tmpl msgs buf).2 := by
        apply hfits
        rw [hsize]
        omega
      rw [hsecond, hfirst]
      apply llama_chat_apply_template_congr L tmpl msgs true _ _ hne
      rw [llama_chat_apply_template_length]
    · have hfirst : applyTemplateGrow L tmpl msgs buf
          = llama_chat_apply_template L tmpl msgs true buf := hfits buf hg
      have hsize : (applyTemplateGrow L tmpl msgs buf).2.length = buf.length := by
        rw [hfirst, llama_chat_apply_template_length]
      have hsecond : applyTemplateGrow L tmpl msgs (applyTemplateGrow L tmpl msgs buf).2
          = llama_chat_apply_template L tmpl msgs true (applyTemplateGrow L tmpl msgs buf).2 := by
        apply hfits
        rw [hsize]
        exact hg
      rw [hsecond, hfirst]
      apply llama_chat_apply_template_congr L tmpl msgs true _ _ hne
      rw [llama_chat_apply_template_length]

/-- C10, counterexample. The history `user:"Hi"` is rendered with `prevLen = 0` into a
buffer of 64 bytes: the new-content slice is the four bytes of `Hi`, line feed,
`>`.  Rendered a second time, with no message appended, the new-content slice is
the same four bytes, not the empty string. -/
theorem second_render_returns_same_slice :
    (renderAndDiff byteEngine (some byteTemplate) [{ role := "user", content := queryHi }] 0
      (List.replicate 64 0)).1 = .ok [0x48, 0x69, 0x0A, 0x3E] ∧
    (renderAndDiff byteEngine (some byteTemplate) [{ role := "user", content := queryHi }] 0
      (renderAndDiff byteEngine (some byteTemplate) [{ role := "user", content := queryHi }] 0
        (List.replicate 64 0)).2).1 = .ok [0x48, 0x69, 0x0A, 0x3E] ∧
    [0x48, 0x69, 0x0A, 0x3E] ≠ ([] : List Nat) :=
  ⟨rfl, rfl, by decide⟩

/-- C10, as amended. For every template, history, `prevLen` and buffer, rendering the
history and taking the new-content slice `[prevLen, newLen)` twice, with no
message appended between the two, yields the second time the slice (or the
error) and the buffer of the first time: rendering does not advance
`prevLen`. -/
theorem renderAndDiff_idempotent {E : Type} (L : Llama E) (tmpl : Option (List Nat))
    (msgs : List ChatMessage) (prevLen : Int) (buf : List Nat) :
    renderAndDiff L tmpl msgs prevLen (renderAndDiff L tmpl msgs prevLen buf).2
      = renderAndDiff L tmpl msgs prevLen buf := by
  have h2 : (renderAndDiff L tmpl msgs prevLen buf).2 = (applyTemplateGrow L tmpl msgs buf).2 := by
    unfold renderAndDiff
    dsimp only
    split_ifs
    · rfl
    · split <;> rfl
  rw [h2]
  conv_lhs => unfold renderAndDiff
  conv_rhs => unfold renderAndDiff
  rw [applyTemplateGrow_idempotent]

/-! ## The rendered buffer and `_prevLen` across calls -/

theorem applyTemplateGrow_length_ge {E : Type} (L : Llama E) (tmpl : Option (List Nat))
    (msgs : List ChatMessage) (buf : List Nat) :
    buf.length ≤ (applyTemplateGrow L tmpl msgs buf).2.length := by
  unfold applyTemplateGrow
  dsimp only
  split_ifs with h
  · rw [llama_chat_apply_template_length]
    simp only [vectorResize, List.length_append, List.length_take, List.length_replicate,
      llama_chat_apply_template_length]
    omega
  · rw [llama_chat_apply_template_length]

theorem renderAndDiff_buffer {E : Type} (L : Llama E) (tmpl : Option (List Nat))
    (msgs : List ChatMessage) (prevLen : Int) (buf : List Nat) :
    (renderAndDiff L tmpl msgs prevLen buf).2 = (applyTemplateGrow L tmpl msgs buf).2 := by
  unfold renderAndDiff
  dsimp only
  split_ifs
  · rfl
  · split <;> rfl

/-- A prompt slice that is taken lies inside the buffer. -/
theorem renderAndDiff_ok_range {E : Type} (L : Llama E) (tmpl : Option (List Nat))
    (msgs : List ChatMessage) (prevLen : Int) (buf prompt : List Nat)
    (h : (renderAndDiff L tmpl msgs prevLen buf).1 = .ok prompt) :
    prevLen ≤ ((renderAndDiff L tmpl msgs prevLen buf).2.length : Int) := by
  rw [renderAndDiff_buffer]
  unfold renderAndDiff at h
  dsimp only at h
  split_ifs at h with h1
  split at h
  · simp at h
  · rename_i p hp
    unfold stringFromRange at hp
    split_ifs at hp with h2
    omega

/-- The call `startCompletion` keeps `_prevLen` within the buffer when it is so before the
call, whether it returns or throws: the buffer never shrinks below `_prevLen`. -/
theorem startCompletion_keeps_prevLen_within {E : Type} (L : Llama E) (s : LLMInference E)
    (query : List Nat) (h : s._prevLen ≤ (s._formattedMessages.length : Int)) :
    (startCompletion L s query).2._prevLen
      ≤ ((startCompletion L s query).2._formattedMessages.length : Int) := by
  unfold startCompletion
  split
  · exact h
  · dsimp only
    by_cases hs : s._storeChats = true
    · have hge := applyTemplateGrow_length_ge L s._chatTemplate
        (s._messages ++ [{ role := "user", content := cStr query }]) s._formattedMessages
      split <;>
        simp only [hs, addChatMessage, Bool.not_true, Bool.false_eq_true, if_false,
          renderAndDiff_buffer] <;> omega
    · have hge := applyTemplateGrow_length_ge L s._chatTemplate
        (s._messages ++ [{ role := "user", content := cStr query }]) (List.replicate L.n_ctx 0)
      split <;>
        simp only [hs, addChatMessage, Bool.not_false, if_true, renderAndDiff_buffer] <;> omega

/-- After a call of `startCompletion` that returns, `_prevLen` is within the buffer, whatever
the state before the call. -/
theorem startCompletion_ok_prevLen_within {E : Type} (L : Llama E) (p s : LLMInference E)
    (query : List Nat) (h : startCompletion L p query = (.ok (), s)) :
    s._prevLen ≤ (s._formattedMessages.length : Int) := by
  unfold startCompletion at h
  split at h
  · simp at h
  · dsimp only at h
    split at h
    · simp at h
    · rename_i prompt hp
      have hr := renderAndDiff_ok_range L _ _ _ _ prompt hp
      simp only [Prod.mk.injEq, true_and] at h
      subst h
      exact hr

/-- The method `completionLoop` writes neither `_prevLen` nor `_formattedMessages`, at any exit. -/
theorem completionLoop_keeps_buffer {E : Type} (L : Llama E) (s : LLMInference E) :
    (completionLoop L s).2._prevLen = s._prevLen ∧
      (completionLoop L s).2._formattedMessages = s._formattedMessages := by
  unfold completionLoop completionLoopCore
  dsimp only
  split
  · exact ⟨rfl, rfl⟩
  · exact ⟨rfl, rfl⟩
  · split_ifs <;> exact ⟨rfl, rfl⟩

theorem runCalls_append {E : Type} (L : Llama E) (s : LLMInference E) (calls : List Call)
    (c : Call) : runCalls L s (calls ++ [c]) = Call.run L (runCalls L s calls) c := by
  simp [runCalls, List.foldl_append]

/-- The calls `startCompletion` and `completionLoop` keep `_prevLen` within the buffer. -/
theorem runCalls_keeps_prevLen_within {E : Type} (L : Llama E) (calls : List Call) :
    ∀ s : LLMInference E, s._prevLen ≤ (s._formattedMessages.length : Int) →
      (∀ c ∈ calls, c ≠ Call.stopCompletion) →
      (runCalls L s calls)._prevLen ≤ ((runCalls L s calls)._formattedMessages.length : Int) := by
  induction calls with
  | nil =>
    intro s h _
    exact h
  | cons c cs ih =>
    intro s h hc
    have hcs : ∀ d ∈ cs, d ≠ Call.stopCompletion := fun d hd => hc d (List.mem_cons_of_mem _ hd)
    have hstep : (Call.run L s c)._prevLen ≤ ((Call.run L s c)._formattedMessages.length : Int) := by
      cases c with
      | startCompletion query => exact startCompletion_keeps_prevLen_within L s query h
      | completionLoop =>
        obtain ⟨h1, h2⟩ := completionLoop_keeps_buffer L s
        simp only [Call.run, h1, h2]
        exact h
      | stopCompletion => exact absurd rfl (hc _ (List.mem_cons_self _ _))
    exact ih (Call.run L s c) hstep hcs

/-- C11, counterexample. A session loaded with `storeChats = true` and a context of 64
positions has a buffer of 64 bytes.  `startCompletion` with a query of 62 bytes
renders a prompt of 64 bytes, which fits; `completionLoop` returns `O`;
`stopCompletion` commits `O` and sets `_prevLen` to the length of the two
messages rendered without a generation prompt, 65, while the buffer still
holds 64 bytes.  All three calls return. -/
theorem prevLen_exceeds_buffer_after_stop :
    (startCompletion byteEngine (okSession true) fullQuery).1 = .ok () ∧
    (completionLoop byteEngine
      (runCalls byteEngine (okSession true) [.startCompletion fullQuery])).1 = .ok [0x4F] ∧
    (stopCompletion byteEngine
      (runCalls byteEngine (okSession true) [.startCompletion fullQuery, .completionLoop])).1
      = .ok () ∧
    (runCalls byteEngine (okSession true)
      [.startCompletion fullQuery, .completionLoop, .stopCompletion])._prevLen = 65 ∧
    (runCalls byteEngine (okSession true)
      [.startCompletion fullQuery, .completionLoop, .stopCompletion])._formattedMessages.length
      = 64 :=
  ⟨rfl, rfl, rfl, rfl, rfl⟩

/-- C11, as amended. For every engine and chat template: in every state reached by any
sequence of `startCompletion` and `completionLoop` calls, returning or
throwing, from a session right after `loadModel` on a new object, or from the
state in which a call of `startCompletion` has returned (whatever calls,
`stopCompletion` included, came before it), `_prevLen` is at most the length of
`_formattedMessages`.  Only `stopCompletion` can break the bound: it sets
`_prevLen` to the rendered length computed against a null buffer, and the
buffer is grown at the next `startCompletion`. -/
theorem prevLen_within_buffer_until_stop {E : Type} (L : Llama E) (s : LLMInference E)
    (calls : List Call)
    (hbase : (∃ e storeChats chatTemplate, s = loadModel L {} e storeChats chatTemplate) ∨
      (∃ p query, startCompletion L p query = (.ok (), s)))
    (hcalls : ∀ c ∈ calls, c ≠ Call.stopCompletion) :
    (runCalls L s calls)._prevLen ≤ ((runCalls L s calls)._formattedMessages.length : Int) := by
  apply runCalls_keeps_prevLen_within L calls s _ hcalls
  rcases hbase with ⟨e, storeChats, chatTemplate, rfl⟩ | ⟨p, query, hp⟩
  · simp only [loadModel]
    omega
  · exact startCompletion_ok_prevLen_within L p s query hp

/-- C11 as amended, witness: two turns without `stopCompletion` on a loaded session. -/
theorem prevLen_within_buffer_until_stop_witness :
    (runCalls byteEngine (okSession true)
      [.startCompletion queryHi, .completionLoop, .completionLoop, .completionLoop,
        .startCompletion queryYo, .completionLoop])._prevLen
      ≤ ((runCalls byteEngine (okSession true)
          [.startCompletion queryHi, .completionLoop, .completionLoop, .completionLoop,
            .startCompletion queryYo, .completionLoop])._formattedMessages.length : Int) :=
  prevLen_within_buffer_until_stop byteEngine (okSession true)
    [.startCompletion queryHi, .completionLoop, .completionLoop, .completionLoop,
      .startCompletion queryYo, .completionLoop]
    (Or.inl ⟨{ positions := [], script := [0x4F, 0x4B, 256, 0x59] }, true, none, rfl⟩) (by decide)

/-! ## Video frames -/

theorem addVideoFrame_rejected {E : Type} (s : LLMInference E) (c : FrameCall)
    (h : c.channels ≠ 3) : addVideoFrame s c.pixel_data c.width c.height c.channels = s := by
  simp [addVideoFrame, h]

theorem addVideoFrames_rejected {E : Type} (calls : List FrameCall) :
    ∀ s : LLMInference E, (∀ c ∈ calls, c.channels ≠ 3) → addVideoFrames s calls = s := by
  induction calls with
  | nil =>
    intro s _
    rfl
  | cons c cs ih =>
    intro s h
    have hc := h c (List.mem_cons_self _ _)
    have hcs : ∀ d ∈ cs, d.channels ≠ 3 := fun d hd => h d (List.mem_cons_of_mem _ hd)
    simp only [addVideoFrames, List.foldl_cons, addVideoFrame_rejected s c hc]
    exact ih s hcs

/-- C12. For every session state and every sequence of `addVideoFrame` calls whose
`channels` argument is not 3, whatever the pixels, the width and the height:
after every number `k` of the calls the session state, and so the frame
sequence, is the one before the calls, and `getFrameCount` has not changed. -/
theorem addVideoFrame_not_three_channels {E : Type} (s : LLMInference E)
    (calls : List FrameCall) (h : ∀ c ∈ calls, c.channels ≠ 3) (k : Nat) :
    addVideoFrames s (calls.take k) = s ∧
    (addVideoFrames s (calls.take k)).videoFrames = s.videoFrames ∧
    getFrameCount (addVideoFrames s (calls.take k)) = getFrameCount s := by
  have hk : addVideoFrames s (calls.take k) = s :=
    addVideoFrames_rejected (calls.take k) s (fun c hc => h c (List.mem_of_mem_take hc))
  rw [hk]
  exact ⟨rfl, rfl, rfl⟩

/-- C12, witness: a frame with four channels and a frame with one channel, offered to a
session that holds no frame. -/
theorem addVideoFrame_not_three_channels_witness :
    getFrameCount (addVideoFrames (okSession false)
      [{ pixel_data := [1, 2, 3, 4], width := 1, height := 1, channels := 4 },
       { pixel_data := [5], width := 1, height := 1, channels := 1 }]) = 0 :=
  (addVideoFrame_not_three_channels (okSession false)
    [{ pixel_data := [1, 2, 3, 4], width := 1, height := 1, channels := 4 },
     { pixel_data := [5], width := 1, height := 1, channels := 1 }]
    (by decide) 2).2.2

/-! ## A structurally invalid pending buffer -/

/-- The outer loop of `_isValidUtf8` rejects a byte that cannot start a sequence. -/
theorem utf8Scan_cannotStart (b : Nat) (bs : List Nat) (h : cannotStart b) :
    utf8Scan 0 (b :: bs) = false := by
  have hb : b < 256 := by
    unfold cannotStart at h
    omega
  obtain ⟨m1, m2, m3, m4, _⟩ := byte_class_masks b hb
  have h0 : b ≠ 0 := by
    unfold cannotStart at h
    omega
  have n1 : ¬ b &&& 0x80 = 0x00 := fun c => by
    have := m1.mp c
    unfold cannotStart at h
    omega
  have n2 : ¬ b &&& 0xE0 = 0xC0 := fun c => by
    have := m2.mp c
    unfold cannotStart at h
    omega
  have n3 : ¬ b &&& 0xF0 = 0xE0 := fun c => by
    have := m3.mp c
    unfold cannotStart at h
    omega
  have n4 : ¬ b &&& 0xF8 = 0xF0 := fun c => by
    have := m4.mp c
    unfold cannotStart at h
    omega
  unfold utf8Scan
  simp only [h0, n1, n2, n3, n4, if_false]

/-- The inner loop of `_isValidUtf8` rejects a byte that is not a continuation byte. -/
theorem utf8Scan_not_continuation (k c : Nat) (bs : List Nat) (hc : c < 0x100)
    (h : ¬ isContinuation c) : utf8Scan (k + 1) (c :: bs) = false := by
  have hm : c &&& 0xC0 ≠ 0x80 := fun e => h ((byte_class_masks c hc).2.2.2.2.mp e)
  unfold utf8Scan
  simp only [hm, ne_eq, not_false_eq_true, if_true]

/-- After a multi-byte lead byte the inner loop of `_isValidUtf8` expects a continuation
byte. -/
theorem utf8Scan_multiByteLead (b : Nat) (bs : List Nat) (h : isMultiByteLead b) :
    ∃ k, utf8Scan 0 (b :: bs) = utf8Scan (k + 1) bs := by
  have hb : b < 256 := by
    unfold isMultiByteLead at h
    omega
  obtain ⟨m1, m2, m3, m4, _⟩ := byte_class_masks b hb
  unfold isMultiByteLead at h
  have h0 : b ≠ 0 := by omega
  have n1 : ¬ b &&& 0x80 = 0x00 := fun c => by
    have := m1.mp c
    omega
  by_cases h2 : b &&& 0xE0 = 0xC0
  · refine ⟨0, ?_⟩
    conv_lhs => unfold utf8Scan
    simp only [h0, n1, h2, if_false, if_true]
  · by_cases h3 : b &&& 0xF0 = 0xE0
    · refine ⟨1, ?_⟩
      conv_lhs => unfold utf8Scan
      simp only [h0, n1, h2, h3, if_false, if_true]
    · have h4 : b &&& 0xF8 = 0xF0 := by
        apply m4.mpr
        have a2 : ¬ (0xC0 ≤ b ∧ b < 0xE0) := fun c => h2 (m2.mpr c)
        have a3 : ¬ (0xE0 ≤ b ∧ b < 0xF0) := fun c => h3 (m3.mpr c)
        omega
      refine ⟨2, ?_⟩
      conv_lhs => unfold utf8Scan
      simp only [h0, n1, h2, h3, h4, if_false, if_true]

/-- A structurally invalid buffer fails `_isValidUtf8`, whatever is appended to it. -/
theorem structurallyInvalid_rejected (cache ext : List Nat) (h : StructurallyInvalid cache) :
    _isValidUtf8 (cache ++ ext) = false := by
  unfold _isValidUtf8
  match cache, h with
  | [b], h => exact utf8Scan_cannotStart b _ h
  | b :: c :: rest, h =>
    rcases h with h | ⟨hl, _, hc, hn⟩
    · exact utf8Scan_cannotStart b _ h
    · obtain ⟨k, hk⟩ := utf8Scan_multiByteLead b ((c :: rest) ++ ext) hl
      rw [List.cons_append, hk, List.cons_append]
      exact utf8Scan_not_continuation k c _ hc hn

/-- Appending to a structurally invalid buffer leaves it structurally invalid. -/
theorem structurallyInvalid_append (cache ext : List Nat) (h : StructurallyInvalid cache) :
    StructurallyInvalid (cache ++ ext) := by
  match cache, h with
  | [b], h =>
    cases ext with
    | nil => exact h
    | cons c rest => exact Or.inl h
  | b :: c :: rest, h => exact h

/-- With a structurally invalid pending buffer, a call of `completionLoop` leaves the
buffer structurally invalid at every exit and, when it samples a token that
is not an end-of-generation token, returns the empty string. -/
theorem completionLoopCore_invalid_pending {E : Type} (L : Llama E) (s : LLMInference E)
    (h : StructurallyInvalid s._cacheResponseTokens) :
    StructurallyInvalid (completionLoopCore L s).2._cacheResponseTokens ∧
      ∀ t, (completionLoopCore L s).1 = .piece t → t = [] := by
  unfold completionLoopCore
  split
  · exact ⟨h, fun t ht => by simp at ht⟩
  · exact ⟨h, fun t ht => by simp at ht⟩
  · dsimp only
    split_ifs with h1 h2 h3 h4 h5 h6 h7
    all_goals first
      | exact ⟨h, fun t ht => by simp at ht⟩
      | exact absurd ‹_isValidUtf8 _ = true› (by
          rw [structurallyInvalid_rejected _ _ h]
          simp)
      | exact ⟨structurallyInvalid_append _ _ h, fun t ht => by
          simp only [LoopExit.piece.injEq] at ht
          exact ht.symm⟩

theorem startCompletion_keeps_pending {E : Type} (L : Llama E) (s : LLMInference E)
    (query : List Nat) :
    (startCompletion L s query).2._cacheResponseTokens = s._cacheResponseTokens := by
  unfold startCompletion
  split
  · rfl
  · dsimp only
    split <;> simp only [addChatMessage] <;> split_ifs <;> rfl

theorem stopCompletion_keeps_pending {E : Type} (L : Llama E) (s : LLMInference E) :
    (stopCompletion L s).2._cacheResponseTokens = s._cacheResponseTokens := by
  unfold stopCompletion
  dsimp only
  split_ifs <;> simp [addChatMessage]

theorem runCalls_invalid_pending {E : Type} (L : Llama E) (calls : List Call) :
    ∀ s : LLMInference E, StructurallyInvalid s._cacheResponseTokens →
      StructurallyInvalid (runCalls L s calls)._cacheResponseTokens := by
  induction calls with
  | nil =>
    intro s h
    exact h
  | cons c cs ih =>
    intro s h
    apply ih (Call.run L s c)
    cases c with
    | startCompletion query =>
      simp only [Call.run, startCompletion_keeps_pending]
      exact h
    | completionLoop => exact (completionLoopCore_invalid_pending L s h).1
    | stopCompletion =>
      simp only [Call.run, stopCompletion_keeps_pending]
      exact h

/-- C13. If the pending buffer begins with a byte that cannot start a UTF-8 sequence, or
with a multi-byte lead byte followed by a non-zero byte that is not a
continuation byte, then after every later sequence of `startCompletion`,
`completionLoop` and `stopCompletion` calls, returning or throwing, and
whatever pieces were sampled, the pending buffer is still structurally
invalid, a call of `completionLoop` that samples a token other than an
end-of-generation token returns the empty string, and the only strings
`completionLoop` can return are the empty string and the end marker.  None of
the three methods clears the buffer; `buildMultimodalChat`, which does, is not
a call of a text session. -/
theorem invalid_pending_buffer_never_recovers {E : Type} (L : Llama E) (s : LLMInference E)
    (calls : List Call) (hbad : StructurallyInvalid s._cacheResponseTokens) :
    StructurallyInvalid (runCalls L s calls)._cacheResponseTokens ∧
    (∀ t s1, completionLoopCore L (runCalls L s calls) = (.piece t, s1) → t = []) ∧
    (∀ text, (completionLoop L (runCalls L s calls)).1 = .ok text →
      text = [] ∨ text = endMarker) := by
  have hinv := runCalls_invalid_pending L calls s hbad
  obtain ⟨_, hpiece⟩ := completionLoopCore_invalid_pending L (runCalls L s calls) hinv
  refine ⟨hinv, fun t s1 ht => hpiece t (by rw [ht]), fun text ht => ?_⟩
  unfold completionLoop at ht
  dsimp only at ht
  cases hexit : (completionLoopCore L (runCalls L s calls)).1 with
  | notReady =>
    rw [hexit] at ht
    simp only [LoopExit.result, Except.ok.injEq] at ht
    exact Or.inr ht.symm
  | contextSizeReached =>
    rw [hexit] at ht
    simp [LoopExit.result] at ht
  | decodeFailed =>
    rw [hexit] at ht
    simp [LoopExit.result] at ht
  | endOfGeneration =>
    rw [hexit] at ht
    simp only [LoopExit.result, Except.ok.injEq] at ht
    exact Or.inr ht.symm
  | piece t =>
    rw [hexit] at ht
    simp only [LoopExit.result, Except.ok.injEq] at ht
    exact Or.inl (ht ▸ hpiece t hexit)

/-- C13, witness: the stray continuation byte `80` is pending after the first call of
`completionLoop`; the turn is driven to its end marker and stopped, a second
turn is started, and the call that samples `B` returns the empty string. -/
theorem invalid_pending_buffer_never_recovers_witness :
    (runCalls byteEngine strayByteSession
      [.startCompletion queryHi, .completionLoop])._cacheResponseTokens = [0x80] ∧
    StructurallyInvalid
      (runCalls byteEngine
        (runCalls byteEngine strayByteSession [.startCompletion queryHi, .completionLoop])
        [.completionLoop, .completionLoop, .stopCompletion, .startCompletion queryYo,
          .completionLoop])._cacheResponseTokens ∧
    (completionLoop byteEngine
      (runCalls byteEngine
        (runCalls byteEngine strayByteSession [.startCompletion queryHi, .completionLoop])
        [.completionLoop, .completionLoop, .stopCompletion, .startCompletion queryYo])).1
      = .ok [] :=
  ⟨rfl,
    (invalid_pending_buffer_never_recovers byteEngine
      (runCalls byteEngine strayByteSession [.startCompletion queryHi, .completionLoop])
      [.completionLoop, .completionLoop, .stopCompletion, .startCompletion queryYo,
        .completionLoop]
      (Or.inl (by decide))).1,
    rfl⟩

end SmolLM
